import Mathlib

/-!
Shallow embedding of the LUT-synthesis core of `src/backend/main.py`
(LUTForge AI backend, FastAPI service).

Modelling conventions:
* Machine floats (numpy float32/float64) are modelled by exact rationals `ℚ`.
  Every comparison appearing in a theorem below is far from the float rounding
  error of the corresponding Python computation (the values involved are small
  dyadic rationals such as k/32 and thresholds such as 0.01), so the rational
  model agrees with the float semantics on all inputs the theorems touch.
* An image (an H×W×3 numpy array) is modelled as the flattened list of its
  RGB pixels; numpy boolean-mask selection becomes `List.filter` and
  `np.mean(..., axis=0)` becomes a componentwise sum divided by the length.
* Python strings are modelled as `List Char` (`PyStr`); `str.split('\n')`,
  `str.strip()`, `str.startswith` and `str.split()` are given as recursive
  functions with Python's semantics.
* A Python function that can raise is modelled with `Option`/`Except`
  (`none`/`.error` = an exception propagates).
-/

set_option maxHeartbeats 1000000

abbrev Color := ℚ × ℚ × ℚ

abbrev Img := List Color

abbrev PyStr := List Char

/-- Grid: a dense N×N×N×3 LUT, index (r,g,b) ↦ RGB value.  Modelled as a total
function on naturals; only indices below the grid size are ever read. -/
abbrev Grid := ℕ → ℕ → ℕ → Color

/-- Constant `LUT_SIZE = 33` from the source. -/
def LUT_SIZE : ℕ := 33

/-- Luminance `0.299*R + 0.587*G + 0.114*B`, the formula used (with these
exact coefficients) in `analyze_reference_colors`, `create_adaptive_lut`,
`analyze_image_characteristics` and `apply_professional_color_grading`. -/
def lum3 (r g b : ℚ) : ℚ := 299/1000 * r + 587/1000 * g + 114/1000 * b

/-- Luminance of one pixel. -/
def luminance (c : Color) : ℚ := lum3 c.1 c.2.1 c.2.2

/-- Scalar `np.clip(x, lo, hi)`. -/
def clip (x lo hi : ℚ) : ℚ := max lo (min x hi)

/-- Componentwise `np.clip` on an RGB triple. -/
def clip3 (c : Color) (lo hi : ℚ) : Color :=
  (clip c.1 lo hi, clip c.2.1 lo hi, clip c.2.2 lo hi)

/-- Componentwise mean (`np.mean(pixels, axis=0)`) of a pixel list.  On an
empty list this is 0/0 = 0 in `ℚ`; the source only takes means of lists it
has checked to be non-empty (via `np.any(mask)`), except for whole-image
means, where an empty image is outside the service's domain. -/
def meanRGB (px : List Color) : Color :=
  ((px.map (fun p => p.1)).sum / px.length,
   (px.map (fun p => p.2.1)).sum / px.length,
   (px.map (fun p => p.2.2)).sum / px.length)

/-- Mean luminance (`np.mean(luminance[mask])`) of a pixel list. -/
def meanLum (px : List Color) : ℚ := (px.map luminance).sum / px.length

/-- Mean of the red channel over the whole image (`np.mean(img[:, :, 0])`). -/
def redAvg (img : Img) : ℚ := (img.map (fun p => p.1)).sum / img.length

/-- Mean of the green channel over the whole image (`np.mean(img[:, :, 1])`). -/
def greenAvg (img : Img) : ℚ := (img.map (fun p => p.2.1)).sum / img.length

/-- Mean of the blue channel over the whole image (`np.mean(img[:, :, 2])`). -/
def blueAvg (img : Img) : ℚ := (img.map (fun p => p.2.2)).sum / img.length

/-- The `'warm'`/`'cool'` string stored under `'temperature_bias'` by
`analyze_reference_colors`. -/
inductive TempBias
| warm
| cool
deriving DecidableEq

/-- The `'red'`/`'green'`/`'blue'` string stored under `'color_cast'`. -/
inductive ColorCast
| red
| green
| blue
deriving DecidableEq

/-- The `'dominant_colors'` sub-dict of the record returned by
`analyze_reference_colors`: per-band mean RGB. -/
structure DominantColors where
  shadows : Color
  midtones : Color
  highlights : Color
deriving DecidableEq

/-- The dict returned by `analyze_reference_colors` (keys `'dominant_colors'`,
`'temperature_bias'`, `'warmth_strength'`, `'color_cast'`, `'cast_strength'`).
Note this record does NOT have the keys `'shadows'`/`'midtones'`/
`'highlights'`/`'overall'` of `ImgAnalysis` below. -/
structure RefAnalysis where
  dominant_colors : DominantColors
  temperature_bias : TempBias
  warmth_strength : ℚ
  color_cast : ColorCast
  cast_strength : ℚ
deriving DecidableEq

/-- `analyze_reference_colors` (main.py:414-470).  Bands: shadows
`luminance < 0.3`, midtones `0.3 ≤ luminance ≤ 0.7`, highlights
`luminance > 0.7`; empty bands fall back to the neutral defaults
(0.1,0.1,0.1)/(0.5,0.5,0.5)/(0.9,0.9,0.9). -/
def analyze_reference_colors (ref_img : Img) : RefAnalysis :=
  let shadows_px := ref_img.filter (fun p => decide (luminance p < 3/10))
  let midtones_px :=
    ref_img.filter (fun p => decide (3/10 ≤ luminance p ∧ luminance p ≤ 7/10))
  let highlights_px := ref_img.filter (fun p => decide (7/10 < luminance p))
  let shadows_avg :=
    if shadows_px.isEmpty then ((1/10 : ℚ), (1/10 : ℚ), (1/10 : ℚ))
    else meanRGB shadows_px
  let midtones_avg :=
    if midtones_px.isEmpty then ((1/2 : ℚ), (1/2 : ℚ), (1/2 : ℚ))
    else meanRGB midtones_px
  let highlights_avg :=
    if highlights_px.isEmpty then ((9/10 : ℚ), (9/10 : ℚ), (9/10 : ℚ))
    else meanRGB highlights_px
  let overall_avg := meanRGB ref_img
  let bias := if overall_avg.1 > overall_avg.2.2 then TempBias.warm else TempBias.cool
  let strength :=
    if overall_avg.1 > overall_avg.2.2 then (overall_avg.1 - overall_avg.2.2) * 2
    else (overall_avg.2.2 - overall_avg.1) * 2
  let cast :=
    if overall_avg.1 ≥ overall_avg.2.1 ∧ overall_avg.1 ≥ overall_avg.2.2 then ColorCast.red
    else if overall_avg.2.1 ≥ overall_avg.2.2 then ColorCast.green
    else ColorCast.blue
  let cast_strength :=
    max overall_avg.1 (max overall_avg.2.1 overall_avg.2.2)
      - min overall_avg.1 (min overall_avg.2.1 overall_avg.2.2)
  ⟨⟨shadows_avg, midtones_avg, highlights_avg⟩, bias, strength, cast, cast_strength⟩

/-- One band (`'shadows'`/`'midtones'`/`'highlights'`) of the dict returned by
`analyze_image_characteristics`.  The source also stores a `'saturation_avg'`
(computed from an 8-bit HSV conversion); it is not modelled because no
function embedded here reads it. -/
structure BandStats where
  rgb_avg : Color
  luminance_avg : ℚ
deriving DecidableEq

/-- The `'overall'` sub-dict of `analyze_image_characteristics`.  The source
also stores `'contrast'` (a standard deviation, i.e. a square root) and
`'saturation_avg'`; they are not modelled because no function embedded here
reads them. -/
structure OverallStats where
  temperature : ℚ
  tint : ℚ
deriving DecidableEq

/-- The dict returned by `analyze_image_characteristics` (keys `'shadows'`,
`'midtones'`, `'highlights'`, `'overall'`). -/
structure ImgAnalysis where
  shadows : BandStats
  midtones : BandStats
  highlights : BandStats
  overall : OverallStats
deriving DecidableEq

/-- `estimate_color_temperature` (main.py:581-596): red/blue channel ratio
mapped to three discrete Kelvin buckets. -/
def estimate_color_temperature (img : Img) : ℚ :=
  let red_avg := redAvg img
  let blue_avg := blueAvg img
  if blue_avg > 0 then
    let rb_ratio := red_avg / blue_avg
    if rb_ratio > 11/10 then 3200
    else if rb_ratio < 9/10 then 6500
    else 5500
  else 5500

/-- `estimate_tint` (main.py:598-604). -/
def estimate_tint (img : Img) : ℚ :=
  (greenAvg img - (redAvg img + blueAvg img) / 2) * 100

/-- `analyze_image_characteristics` (main.py:540-579).  Bands: shadows
`luminance < 0.25`, midtones `0.25 ≤ luminance ≤ 0.75`, highlights
`luminance > 0.75`; empty bands fall back to the documented neutral
defaults. -/
def analyze_image_characteristics (img : Img) : ImgAnalysis :=
  let shadows_px := img.filter (fun p => decide (luminance p < 1/4))
  let midtones_px :=
    img.filter (fun p => decide (1/4 ≤ luminance p ∧ luminance p ≤ 3/4))
  let highlights_px := img.filter (fun p => decide (3/4 < luminance p))
  ⟨⟨if shadows_px.isEmpty then ((1/10 : ℚ), (1/10 : ℚ), (1/10 : ℚ))
      else meanRGB shadows_px,
    if shadows_px.isEmpty then (3/20 : ℚ) else meanLum shadows_px⟩,
   ⟨if midtones_px.isEmpty then ((1/2 : ℚ), (1/2 : ℚ), (1/2 : ℚ))
      else meanRGB midtones_px,
    if midtones_px.isEmpty then (1/2 : ℚ) else meanLum midtones_px⟩,
   ⟨if highlights_px.isEmpty then ((9/10 : ℚ), (9/10 : ℚ), (9/10 : ℚ))
      else meanRGB highlights_px,
    if highlights_px.isEmpty then (17/20 : ℚ) else meanLum highlights_px⟩,
   ⟨estimate_color_temperature img, estimate_tint img⟩⟩

/-- The `adjusted_color` computed by `apply_professional_color_grading`
(main.py:606-655) before the final `np.clip` and 85/15 blend: a
luminance-band-weighted shift of the input toward the reference band mean
(the shift itself clipped to ±0.3), then the temperature and tint nudges. -/
def apcg_adjusted (input_color : Color) (source_analysis reference_analysis : ImgAnalysis) :
    Color :=
  let l := luminance input_color
  let target_rgb :=
    if l < 1/4 then reference_analysis.shadows.rgb_avg
    else if l > 3/4 then reference_analysis.highlights.rgb_avg
    else reference_analysis.midtones.rgb_avg
  let source_rgb :=
    if l < 1/4 then source_analysis.shadows.rgb_avg
    else if l > 3/4 then source_analysis.highlights.rgb_avg
    else source_analysis.midtones.rgb_avg
  let weight : ℚ := if l < 1/4 then 8/100 else if l > 3/4 then 6/100 else 12/100
  let color_shift := clip3 (target_rgb.1 - source_rgb.1, target_rgb.2.1 - source_rgb.2.1,
    target_rgb.2.2 - source_rgb.2.2) (-(3/10)) (3/10)
  let a0 : Color := (input_color.1 + color_shift.1 * weight,
    input_color.2.1 + color_shift.2.1 * weight,
    input_color.2.2 + color_shift.2.2 * weight)
  let temp_diff := reference_analysis.overall.temperature - source_analysis.overall.temperature
  let tint_diff := reference_analysis.overall.tint - source_analysis.overall.tint
  let a1 : Color :=
    if |temp_diff| > 100 then
      if temp_diff > 0 then
        (a0.1 * (1 + temp_diff / 50000), a0.2.1, a0.2.2 * (1 - temp_diff / 80000))
      else
        (a0.1 * (1 - |temp_diff| / 80000), a0.2.1, a0.2.2 * (1 + |temp_diff| / 50000))
    else a0
  let a2 : Color :=
    if |tint_diff| > 1/20 then (a1.1, a1.2.1 + tint_diff / 3000, a1.2.2) else a1
  a2

/-- `apply_professional_color_grading` (main.py:606-664): clip the adjusted
color to [0,1], then blend 85% original with 15% adjusted and clip again. -/
def apply_professional_color_grading (input_color : Color)
    (source_analysis reference_analysis : ImgAnalysis) : Color :=
  let adjusted_color :=
    clip3 (apcg_adjusted input_color source_analysis reference_analysis) 0 1
  let blend : ℚ := 85/100
  clip3 (input_color.1 * blend + adjusted_color.1 * (1 - blend),
         input_color.2.1 * blend + adjusted_color.2.1 * (1 - blend),
         input_color.2.2 * blend + adjusted_color.2.2 * (1 - blend)) 0 1

/-- Per-voxel body of the triple loop in `create_adaptive_lut`
(main.py:485-537), for normalized input coordinates.  `warmth_strength` is
read with `.get('warmth_strength', 0.1)` in the source; the record modelled
here always carries the field (as `analyze_reference_colors` always writes
it), so the default is never taken. -/
def adaptiveVoxel (ref_analysis : RefAnalysis) (input_r input_g input_b : ℚ) : Color :=
  let ref_shadows := ref_analysis.dominant_colors.shadows
  let ref_midtones := ref_analysis.dominant_colors.midtones
  let ref_highlights := ref_analysis.dominant_colors.highlights
  let is_warm := ref_analysis.temperature_bias = TempBias.warm
  let warmth_strength := min ref_analysis.warmth_strength (3/10)
  let l := lum3 input_r input_g input_b
  if l > 1/50 then
    let temp_adjustment : ℚ := if is_warm then 1/20 else -(1/20)
    let output_r :=
      if l < 33/100 then input_r + (ref_shadows.1 - l) * (15/100)
      else if l > 66/100 then input_r + (ref_highlights.1 - l) * (12/100)
      else input_r + (ref_midtones.1 - l) * (18/100)
    let output_g :=
      if l < 33/100 then input_g + (ref_shadows.2.1 - l) * (15/100)
      else if l > 66/100 then input_g + (ref_highlights.2.1 - l) * (12/100)
      else input_g + (ref_midtones.2.1 - l) * (18/100)
    let output_b :=
      if l < 33/100 then input_b + (ref_shadows.2.2 - l) * (15/100)
      else if l > 66/100 then input_b + (ref_highlights.2.2 - l) * (12/100)
      else input_b + (ref_midtones.2.2 - l) * (18/100)
    let output_r2 :=
      if is_warm then output_r * (1 + temp_adjustment * warmth_strength)
      else output_r * (1 - |temp_adjustment| * warmth_strength * (7/10))
    let output_b2 :=
      if is_warm then output_b * (1 - temp_adjustment * warmth_strength * (7/10))
      else output_b * (1 + |temp_adjustment| * warmth_strength)
    (clip output_r2 0 1, clip output_g 0 1, clip output_b2 0 1)
  else (clip input_r 0 1, clip input_g 0 1, clip input_b 0 1)

/-- `create_adaptive_lut` (main.py:472-538): the fallback grid, voxel (r,g,b)
holding the adjusted value of the identity color (r/32, g/32, b/32). -/
def create_adaptive_lut (ref_analysis : RefAnalysis) : Grid :=
  fun r g b =>
    adaptiveVoxel ref_analysis ((r : ℚ) / ((LUT_SIZE : ℚ) - 1))
      ((g : ℚ) / ((LUT_SIZE : ℚ) - 1)) ((b : ℚ) / ((LUT_SIZE : ℚ) - 1))

/-- A `CinematicLook` catalog entry (main.py:50-56). -/
structure CinematicLook where
  name : PyStr
  description : PyStr
  method : PyStr
  reference_colors : List Color
  temperature_bias : ℚ
  saturation_factor : ℚ

/-- `apply_cinematic_adjustments` (main.py:691-695): the source returns the
LUT unchanged ("For now, return the LUT unchanged to prevent issues"). -/
def apply_cinematic_adjustments (lut : Grid) (_look : CinematicLook) : Grid := lut

/-- Python exceptions relevant to the embedded functions. -/
inductive PyError
| keyError
| transferFailure
| valueError
deriving DecidableEq

/-- Modelled boundary: `apply_professional_color_grading` reads the keys
`'shadows'`/`'midtones'`/`'highlights'`/`'overall'` from its
`reference_analysis` argument, but inside `generate_lut_from_color_transfer`
that argument is the dict built by `analyze_reference_colors`, whose keys are
`'dominant_colors'`, `'temperature_bias'`, `'warmth_strength'`,
`'color_cast'`, `'cast_strength'`.  The first access
`reference_analysis['shadows']` therefore raises `KeyError` in Python. -/
def refAnalysisBandLookup (_a : RefAnalysis) : Except PyError ImgAnalysis :=
  Except.error PyError.keyError

/-- `generate_lut_from_color_transfer` (main.py:363-412).  The external
`Normalizer`/`ColorMatcher` pipeline (`norm.type_norm` + `cm.transfer`) is
abstracted as the parameter `cmTransfer`: given the source image, the
reference image and the method string it either yields the matched image or
raises.  Everything inside the Python `try:` block is in `attempt`; the
`except:` branch falls back to
`create_adaptive_lut(analyze_reference_colors(reference_img))`. -/
def generate_lut_from_color_transfer
    (cmTransfer : Img → Img → PyStr → Except PyError Img)
    (source_img reference_img : Img) (method : PyStr) : Grid :=
  let attempt : Except PyError Grid := do
    let _matched ← cmTransfer source_img reference_img method
    let source_analysis := analyze_image_characteristics source_img
    let reference_analysis := analyze_reference_colors reference_img
    let refA ← refAnalysisBandLookup reference_analysis
    Except.ok (fun r g b =>
      apply_professional_color_grading
        ((r : ℚ) / ((LUT_SIZE : ℚ) - 1), (g : ℚ) / ((LUT_SIZE : ℚ) - 1),
          (b : ℚ) / ((LUT_SIZE : ℚ) - 1))
        source_analysis refA)
  match attempt with
  | Except.ok lut => lut
  | Except.error _ => create_adaptive_lut (analyze_reference_colors reference_img)

/-- Decimal digits of `n`, most significant first, via fuel recursion
(`fuel ≥ n` suffices since `n/10 < n` for `n > 0`).  Empty for `n = 0`. -/
def natDigitsAux : ℕ → ℕ → List Char
| 0, _ => []
| fuel + 1, n => if n = 0 then [] else natDigitsAux fuel (n / 10) ++ [Nat.digitChar (n % 10)]

/-- Decimal rendering of a natural number (Python `str(n)` for `n ≥ 0`). -/
def natChars (n : ℕ) : List Char := if n = 0 then [(Char.ofNat 48)] else natDigitsAux n n

/-- Numeric value of a digit string (`foldl`, most significant first). -/
def digitsVal (s : List Char) : ℕ := s.foldl (fun a c => 10 * a + (c.toNat - 48)) 0

/-- The six fractional digits, left-padded with zeros to width 6. -/
def fracChars (m : ℕ) : List Char :=
  List.replicate (6 - (natChars m).length) (Char.ofNat 48) ++ natChars m

/-- Python `f"{x:.6f}"`: fixed-point rendering with six fractional digits.
The value is rounded to the nearest multiple of 10⁻⁶ (the encoder only ever
formats values that are exact at six decimals, so the tie-breaking rule and
binary-float rounding are irrelevant there; a negative value rounding to
exactly 0 would print without the `-` float formatting keeps, which no
clipped grid can produce). -/
def fmt6Body (m : ℕ) : PyStr :=
  natChars (m / 1000000) ++ '.' :: fracChars (m % 1000000)

def fmt6 (q : ℚ) : PyStr :=
  let n : ℤ := round (q * 1000000)
  if n < 0 then '-' :: fmt6Body n.natAbs else fmt6Body n.toNat

/-- One data line `f"{rgb[0]:.6f} {rgb[1]:.6f} {rgb[2]:.6f}"` (without the
trailing newline). -/
def dataLine (v : Color) : PyStr := fmt6 v.1 ++ ' ' :: fmt6 v.2.1 ++ ' ' :: fmt6 v.2.2

/-- First header comment line of the encoder. -/
def header1 : PyStr := (r"# LUTForge AI Generated LUT v2.0").data

/-- Second header comment line of the encoder. -/
def header2 : PyStr := (r"# Created using professional color-matcher algorithms").data

/-- The literal `LUT_3D_SIZE` (used both to print the size line and by the
analyzer's `startswith` filter). -/
def sizeTag : PyStr := (r"LUT_3D_SIZE").data

/-- The voxel values in encoder order: red outermost, green middle, blue
innermost (the `for r: for g: for b:` triple loop of `lut_to_cube`). -/
def cubeTriples (size : ℕ) (lut : Grid) : List Color :=
  (List.range size).flatMap (fun r =>
    (List.range size).flatMap (fun g =>
      (List.range size).map (fun b => lut r g b)))

/-- `lut_to_cube` (main.py:697-713).  The Python function reads the size from
`lut.shape[0]`; here the size is the explicit first argument.  The text is
two `#` comment lines, `LUT_3D_SIZE {size}`, a blank line, then one data
line per voxel, each line terminated by `\n`. -/
def lut_to_cube (size : ℕ) (lut : Grid) : PyStr :=
  header1 ++ '\n' :: header2 ++ '\n' :: sizeTag ++ ' ' :: natChars size ++ '\n' :: '\n' ::
    (cubeTriples size lut).flatMap (fun v => dataLine v ++ ['\n'])

/-- Python `str.split('\n')`: always returns one piece more than the number
of newlines; a trailing newline yields a final empty piece. -/
def splitNl : List Char → List (List Char)
| [] => [[]]
| c :: cs =>
  if c = '\n' then [] :: splitNl cs
  else
    match splitNl cs with
    | [] => [[c]]
    | p :: ps => (c :: p) :: ps

/-- Python `str.strip()`: drop whitespace from both ends. -/
def pyStrip (s : PyStr) : PyStr :=
  ((s.dropWhile Char.isWhitespace).reverse.dropWhile Char.isWhitespace).reverse

/-- Python `str.startswith(pre)`. -/
def pyStartsWith (pre s : PyStr) : Bool := pre.isPrefixOf s

/-- Accumulator version of whitespace splitting (`acc` holds the current
word reversed). -/
def pyWordsAux : List Char → List Char → List (List Char)
| [], acc => if acc.isEmpty then [] else [acc.reverse]
| c :: cs, acc =>
  if c.isWhitespace then
    if acc.isEmpty then pyWordsAux cs [] else acc.reverse :: pyWordsAux cs []
  else pyWordsAux cs (c :: acc)

/-- Python `str.split()` with no argument: split on whitespace runs,
discarding empty pieces. -/
def pyWords (s : PyStr) : List PyStr := pyWordsAux s []

/-- Python `float(token)` restricted to the plain decimal grammar
`[+-] digits [. digits]` (the only shape the encoder emits; exponents,
`inf`/`nan` and surrounding whitespace are never produced by `lut_to_cube`).
`none` models `float()` raising `ValueError`.  The token is parsed to its
exact rational value; Python parses to the nearest binary double, which
agrees with the exact value on every comparison made by the analyzer on
encoder output (all differences there are multiples of 1/32, far from the
0.01 threshold). -/
def pyFloatPos (s : PyStr) : Option ℚ :=
  let ip := s.takeWhile Char.isDigit
  let rest := s.dropWhile Char.isDigit
  match rest with
  | [] => if ip.isEmpty then none else some (digitsVal ip)
  | c :: fp0 =>
    if c = '.' then
      let fp := fp0.takeWhile Char.isDigit
      let rest2 := fp0.dropWhile Char.isDigit
      if rest2.isEmpty && !(ip.isEmpty && fp.isEmpty) then
        some ((digitsVal ip : ℚ) + (digitsVal fp : ℚ) / 10 ^ fp.length)
      else none
    else none

/-- Signed `float(token)` (see `pyFloatPos`). -/
def pyFloatVal (s : PyStr) : Option ℚ :=
  match s with
  | [] => pyFloatPos []
  | c :: rest =>
    if c = '-' then (pyFloatPos rest).map (fun q => -q)
    else if c = '+' then pyFloatPos rest
    else pyFloatPos (c :: rest)

/-- The `data_lines` comprehension of `analyze_lut_content` (main.py:718):
split on newlines, keep lines whose strip is non-empty and which start with
neither `#` nor `LUT_3D_SIZE`, and strip the kept lines. -/
def extractDataLines (text : PyStr) : List PyStr :=
  ((splitNl text).filter (fun line =>
    !(pyStrip line).isEmpty && !pyStartsWith ('#' :: []) line && !pyStartsWith sizeTag line)).map
    pyStrip

/-- Largest `s` with `s³ ≤ n` (the integer part of the real cube root). -/
def floorCbrt (n : ℕ) : ℕ :=
  Nat.find (show ∃ k, n < (k + 1) ^ 3 from
    ⟨n, lt_of_lt_of_le (Nat.lt_succ_self n) (Nat.le_self_pow (by norm_num) _)⟩)

/-- Python `int(round(n ** (1/3)))`: the nearest integer to the real cube
root (a tie `8n = (2s+1)³` is impossible since the right side is odd).
Float error in Python's `**` cannot move the result across the half-integer
for the argument 35937 used by the analyzer. -/
def roundCbrt (n : ℕ) : ℕ :=
  let s := floorCbrt n
  if 8 * n < (2 * s + 1) ^ 3 then s else s + 1

/-- Per-line body of the `for i, line in enumerate(data_lines)` loop of
`analyze_lut_content`: `some none` = line skipped (empty or not three
values), `some (some d)` = line counted with max channel deviation `d`,
`none` = `float()` raised.  `size` is recomputed from `len(data_lines)` on
every iteration in the source; it is loop-invariant, so it is passed in. -/
def lineResult (size i : ℕ) (line : PyStr) : Option (Option ℚ) :=
  if line.isEmpty then some none
  else
    match (pyWords line).mapM pyFloatVal with
    | none => none
    | some values =>
      match values with
      | [v0, v1, v2] =>
        let b := i / (size * size)
        let g := (i % (size * size)) / size
        let r := i % size
        let expected_r : ℚ := (r : ℚ) / ((size : ℚ) - 1)
        let expected_g : ℚ := (g : ℚ) / ((size : ℚ) - 1)
        let expected_b : ℚ := (b : ℚ) / ((size : ℚ) - 1)
        let r_diff := |v0 - expected_r|
        let g_diff := |v1 - expected_g|
        let b_diff := |v2 - expected_b|
        some (some (max r_diff (max g_diff b_diff)))
      | _ => some none

/-- The dict returned by `analyze_lut_content`. -/
structure LutReport where
  total_entries : ℕ
  transformations : ℕ
  identity_count : ℕ
  max_change : ℚ
  transformation_percentage : ℚ
deriving DecidableEq

/-- `analyze_lut_content` (main.py:715-757).  The source accumulates
`transformations`, `identity_count` and `max_change` in one pass over
`enumerate(data_lines)`; the three accumulators are independent, so each is
expressed as its own count/fold over the per-line results.  `none` models an
exception escaping the function (a `float()` failure). -/
def analyze_lut_content (lut_content : PyStr) : Option LutReport :=
  let data_lines := extractDataLines lut_content
  let size := roundCbrt data_lines.length
  match data_lines.enum.mapM (fun p => lineResult size p.1 p.2) with
  | none => none
  | some results =>
    let diffs := results.reduceOption
    let transformations := diffs.countP (fun d => decide (d > 1/100))
    let identity_count := diffs.countP (fun d => decide (d ≤ 1/100))
    some ⟨data_lines.length, transformations, identity_count,
      diffs.foldl max 0,
      if data_lines.length = 0 then 0
      else (transformations : ℚ) / (data_lines.length : ℚ) * 100⟩

/-- The identity grid: voxel (r,g,b) holds (r/(N-1), g/(N-1), b/(N-1)). -/
def identityGrid (size : ℕ) : Grid :=
  fun r g b =>
    ((r : ℚ) / ((size : ℚ) - 1), (g : ℚ) / ((size : ℚ) - 1), (b : ℚ) / ((size : ℚ) - 1))

/-- The interval [0,1] for one channel. -/
def In01 (q : ℚ) : Prop := 0 ≤ q ∧ q ≤ 1

/-- All three channels in [0,1]. -/
def In01c (c : Color) : Prop := In01 c.1 ∧ In01 c.2.1 ∧ In01 c.2.2

/-- A reference-statistics record as `analyze_reference_colors` can produce
it: per-band mean colors in [0,1] and non-negative warmth strength. -/
def ValidRefStats (a : RefAnalysis) : Prop :=
  In01c a.dominant_colors.shadows ∧ In01c a.dominant_colors.midtones ∧
    In01c a.dominant_colors.highlights ∧ 0 ≤ a.warmth_strength

/-- A concrete reference record (cool bias, shadow mean (0,0,1)) used to
exhibit the maximal deviation of `create_adaptive_lut` from identity. -/
def refRecordCE : RefAnalysis :=
  ⟨⟨(0, 0, 1), (1/2, 1/2, 1/2), (9/10, 9/10, 9/10)⟩, TempBias.cool, 3/10,
    ColorCast.blue, 1⟩

/-- An all-zero analysis record used in witnesses. -/
def zeroImgAnalysis : ImgAnalysis := ⟨⟨(0, 0, 0), 0⟩, ⟨(0, 0, 0), 0⟩, ⟨(0, 0, 0), 0⟩, ⟨0, 0⟩⟩

/-- Derived form (proof artifact, not from the source): the max channel
deviation `analyze_lut_content` computes for line i of an encoded size-cubed
grid, folding the encoder's line content (voxel r = i/N², g = (i%N²)/N,
b = i%N) with the analyzer's index arithmetic (b = i/N², g = (i%N²)/N,
r = i%N). -/
def analyzerDiff (size : ℕ) (lut : Grid) (i : ℕ) : ℚ :=
  let v := lut (i / (size * size)) ((i % (size * size)) / size) (i % size)
  max |((round (v.1 * 1000000) : ℤ) : ℚ) / 1000000 - ((i % size : ℕ) : ℚ) / ((size : ℚ) - 1)|
    (max |((round (v.2.1 * 1000000) : ℤ) : ℚ) / 1000000 -
        (((i % (size * size)) / size : ℕ) : ℚ) / ((size : ℚ) - 1)|
      |((round (v.2.2 * 1000000) : ℤ) : ℚ) / 1000000 -
        ((i / (size * size) : ℕ) : ℚ) / ((size : ℚ) - 1)|)

/-- Shape of one token of a data line: optional minus sign, a non-empty
integer part, and exactly six fractional digits. -/
def sixDecimalToken (w : PyStr) : Prop :=
  ∃ (sign ip fp : PyStr), w = sign ++ ip ++ '.' :: fp ∧ (sign = [] ∨ sign = ['-']) ∧
    ip ≠ [] ∧ fp.length = 6 ∧ (∀ c ∈ ip, c.isDigit = true) ∧ (∀ c ∈ fp, c.isDigit = true)

/-- The ten decimal digit characters. -/
def digits09 : List Char := ['0', '1', '2', '3', '4', '5', '6', '7', '8', '9']

theorem clip_mem (x lo hi : ℚ) (h : lo ≤ hi) : lo ≤ clip x lo hi ∧ clip x lo hi ≤ hi :=
  ⟨le_max_left _ _, max_le h (min_le_right _ _)⟩

theorem clip_of_mem (x lo hi : ℚ) (h1 : lo ≤ x) (h2 : x ≤ hi) : clip x lo hi = x := by
  unfold clip
  rw [min_eq_left h2, max_eq_right h1]

/-- Clipping to [0,1] cannot move a value further from a point of [0,1]. -/
theorem clip_dev (v t : ℚ) (h0 : 0 ≤ t) (h1 : t ≤ 1) : |clip v 0 1 - t| ≤ |v - t| := by
  unfold clip
  rcases le_total v 0 with hv | hv
  · rw [min_eq_left (le_trans hv zero_le_one), max_eq_left hv, zero_sub, abs_neg,
      abs_of_nonneg h0, abs_of_nonpos (show v - t ≤ 0 by linarith)]
    linarith
  · rcases le_total v 1 with hv1 | hv1
    · rw [min_eq_left hv1, max_eq_right hv]
    · rw [min_eq_right hv1, max_eq_right (le_trans h0 h1)]
      rw [abs_of_nonneg (by linarith), abs_of_nonneg (by linarith)]
      linarith

/-- C9: `apply_cinematic_adjustments` returns its input grid unchanged for
every grid and every cinematic look; in particular the look argument (hence
its `temperature_bias` and `saturation_factor` fields) has no effect. -/
theorem C9_apply_cinematic_adjustments_identity :
    (∀ (lut : Grid) (look : CinematicLook), apply_cinematic_adjustments lut look = lut) ∧
    (∀ (lut : Grid) (look1 look2 : CinematicLook),
      apply_cinematic_adjustments lut look1 = apply_cinematic_adjustments lut look2) :=
  ⟨fun _ _ => rfl, fun _ _ _ => rfl⟩

/-- C3: whenever the statistical color-transfer step raises,
`generate_lut_from_color_transfer` does not propagate the error but returns
the adaptive-blend LUT built from the reference statistics alone. -/
theorem C3_transfer_failure_falls_back
    (cmTransfer : Img → Img → PyStr → Except PyError Img)
    (source_img reference_img : Img) (method : PyStr) (e : PyError)
    (h : cmTransfer source_img reference_img method = Except.error e) :
    generate_lut_from_color_transfer cmTransfer source_img reference_img method =
      create_adaptive_lut (analyze_reference_colors reference_img) := by
  unfold generate_lut_from_color_transfer
  rw [h]
  rfl

/-- Witness for C3 at a concrete transfer failure and concrete images. -/
theorem C3_transfer_failure_falls_back_witness :
    generate_lut_from_color_transfer (fun _ _ _ => Except.error PyError.transferFailure)
        [(1, 0, 0)] [(1/2, 1/2, 1/2)] [] =
      create_adaptive_lut (analyze_reference_colors [(1/2, 1/2, 1/2)]) :=
  C3_transfer_failure_falls_back _ _ _ _ PyError.transferFailure rfl

/-- C7: `estimate_color_temperature` maps the red/blue mean ratio to exactly
3200 (ratio > 1.1), 6500 (ratio < 0.9) or 5500 (otherwise, and also when the
mean blue channel is 0); its range is exactly {3200, 5500, 6500}, each value
being attained. -/
theorem C7_estimate_color_temperature_buckets (img : Img) :
    (blueAvg img > 0 →
      (redAvg img / blueAvg img > 11/10 → estimate_color_temperature img = 3200) ∧
      (redAvg img / blueAvg img < 9/10 → estimate_color_temperature img = 6500) ∧
      (¬(redAvg img / blueAvg img > 11/10) → ¬(redAvg img / blueAvg img < 9/10) →
        estimate_color_temperature img = 5500)) ∧
    (blueAvg img = 0 → estimate_color_temperature img = 5500) ∧
    (estimate_color_temperature img = 3200 ∨ estimate_color_temperature img = 5500 ∨
      estimate_color_temperature img = 6500) ∧
    (∃ w : Img, estimate_color_temperature w = 3200) ∧
    (∃ n : Img, estimate_color_temperature n = 5500) ∧
    (∃ c : Img, estimate_color_temperature c = 6500) := by
  refine ⟨?_, ?_, ?_,
    ⟨[(1, 0, 1/2)], by norm_num [estimate_color_temperature, redAvg, blueAvg]⟩,
    ⟨[(1/2, 1/2, 1/2)], by norm_num [estimate_color_temperature, redAvg, blueAvg]⟩,
    ⟨[(0, 0, 1)], by norm_num [estimate_color_temperature, redAvg, blueAvg]⟩⟩
  · intro hb
    simp only [estimate_color_temperature]
    rw [if_pos hb]
    refine ⟨fun h1 => by rw [if_pos h1], fun h2 => ?_, fun h1 h2 => by rw [if_neg h1, if_neg h2]⟩
    rw [if_neg (show ¬(redAvg img / blueAvg img > 11/10) from fun h1 => by linarith), if_pos h2]
  · intro hb
    simp only [estimate_color_temperature]
    rw [if_neg (show ¬(blueAvg img > 0) from by rw [hb]; exact lt_irrefl 0)]
  · simp only [estimate_color_temperature]
    split_ifs <;> simp

/-- Witness for C7 at a concrete warm image. -/
theorem C7_estimate_color_temperature_buckets_witness :
    blueAvg [((1 : ℚ), (0 : ℚ), (1/2 : ℚ))] > 0 ∧
      redAvg [((1 : ℚ), (0 : ℚ), (1/2 : ℚ))] / blueAvg [((1 : ℚ), (0 : ℚ), (1/2 : ℚ))] > 11/10 ∧
      estimate_color_temperature [((1 : ℚ), (0 : ℚ), (1/2 : ℚ))] = 3200 :=
  ⟨by norm_num [blueAvg], by norm_num [redAvg, blueAvg],
    ((C7_estimate_color_temperature_buckets [(1, 0, 1/2)]).1
        (by norm_num [blueAvg])).1 (by norm_num [redAvg, blueAvg])⟩

/-- C8: in both tonal statistics extractors, an empty luminance band yields
the documented neutral default as that band's mean RGB: (0.1,0.1,0.1) for an
empty shadow band, (0.5,0.5,0.5) for an empty midtone band, (0.9,0.9,0.9)
for an empty highlight band (band thresholds 0.3/0.7 in
`analyze_reference_colors` and 0.25/0.75 in `analyze_image_characteristics`). -/
theorem C8_empty_band_neutral_defaults (img : Img) :
    ((img.filter (fun p => decide (luminance p < 3/10)) = [] →
        (analyze_reference_colors img).dominant_colors.shadows = (1/10, 1/10, 1/10)) ∧
     (img.filter (fun p => decide (3/10 ≤ luminance p ∧ luminance p ≤ 7/10)) = [] →
        (analyze_reference_colors img).dominant_colors.midtones = (1/2, 1/2, 1/2)) ∧
     (img.filter (fun p => decide (7/10 < luminance p)) = [] →
        (analyze_reference_colors img).dominant_colors.highlights = (9/10, 9/10, 9/10))) ∧
    ((img.filter (fun p => decide (luminance p < 1/4)) = [] →
        (analyze_image_characteristics img).shadows.rgb_avg = (1/10, 1/10, 1/10)) ∧
     (img.filter (fun p => decide (1/4 ≤ luminance p ∧ luminance p ≤ 3/4)) = [] →
        (analyze_image_characteristics img).midtones.rgb_avg = (1/2, 1/2, 1/2)) ∧
     (img.filter (fun p => decide (3/4 < luminance p)) = [] →
        (analyze_image_characteristics img).highlights.rgb_avg = (9/10, 9/10, 9/10))) := by
  constructor
  · refine ⟨fun h => ?_, fun h => ?_, fun h => ?_⟩ <;>
    · simp only [analyze_reference_colors]
      rw [h]
      rfl
  · refine ⟨fun h => ?_, fun h => ?_, fun h => ?_⟩ <;>
    · simp only [analyze_image_characteristics]
      rw [h]
      rfl

/-- Witness for C8 at a pure-white one-pixel image (empty shadow and midtone
bands in both extractors). -/
theorem C8_empty_band_neutral_defaults_witness :
    ([((1 : ℚ), (1 : ℚ), (1 : ℚ))].filter (fun p => decide (luminance p < 3/10)) = []) ∧
      (analyze_reference_colors [(1, 1, 1)]).dominant_colors.shadows = (1/10, 1/10, 1/10) ∧
      (analyze_reference_colors [(1, 1, 1)]).dominant_colors.midtones = (1/2, 1/2, 1/2) ∧
      (analyze_image_characteristics [(1, 1, 1)]).shadows.rgb_avg = (1/10, 1/10, 1/10) ∧
      (analyze_image_characteristics [(1, 1, 1)]).midtones.rgb_avg = (1/2, 1/2, 1/2) :=
  ⟨by norm_num [luminance, lum3],
    ((C8_empty_band_neutral_defaults [(1, 1, 1)]).1.1 (by norm_num [luminance, lum3])),
    ((C8_empty_band_neutral_defaults [(1, 1, 1)]).1.2.1 (by norm_num [luminance, lum3])),
    ((C8_empty_band_neutral_defaults [(1, 1, 1)]).2.1 (by norm_num [luminance, lum3])),
    ((C8_empty_band_neutral_defaults [(1, 1, 1)]).2.2.1 (by norm_num [luminance, lum3]))⟩

theorem blend_channel (t a : ℚ) (h0 : 0 ≤ t) (h1 : t ≤ 1) (ha0 : 0 ≤ a) (ha1 : a ≤ 1) :
    clip (t * (85/100) + a * (1 - 85/100)) 0 1 = t * (85/100) + a * (1 - 85/100) ∧
      In01 (clip (t * (85/100) + a * (1 - 85/100)) 0 1) ∧
      |clip (t * (85/100) + a * (1 - 85/100)) 0 1 - t| ≤ 15/100 := by
  have hx : clip (t * (85/100) + a * (1 - 85/100)) 0 1 = t * (85/100) + a * (1 - 85/100) :=
    clip_of_mem _ _ _ (by linarith) (by linarith)
  refine ⟨hx, ⟨(clip_mem _ _ _ (by norm_num)).1, (clip_mem _ _ _ (by norm_num)).2⟩, ?_⟩
  rw [hx, abs_le]
  constructor <;> linarith

/-- C5: `apply_professional_color_grading` returns
`clip(0.85·input + 0.15·adjusted)` with `adjusted` itself clipped to [0,1];
consequently, for input in [0,1]³, the result is in [0,1]³ and differs from
the input by at most 0.15 per channel. -/
theorem C5_professional_grading_blend (input : Color) (sa ra : ImgAnalysis)
    (h : In01c input) :
    apply_professional_color_grading input sa ra =
      clip3 (input.1 * (85/100) + (clip3 (apcg_adjusted input sa ra) 0 1).1 * (15/100),
             input.2.1 * (85/100) + (clip3 (apcg_adjusted input sa ra) 0 1).2.1 * (15/100),
             input.2.2 * (85/100) + (clip3 (apcg_adjusted input sa ra) 0 1).2.2 * (15/100)) 0 1 ∧
    In01c (apply_professional_color_grading input sa ra) ∧
    |(apply_professional_color_grading input sa ra).1 - input.1| ≤ 15/100 ∧
    |(apply_professional_color_grading input sa ra).2.1 - input.2.1| ≤ 15/100 ∧
    |(apply_professional_color_grading input sa ra).2.2 - input.2.2| ≤ 15/100 := by
  obtain ⟨⟨h1, h2⟩, ⟨h3, h4⟩, h5, h6⟩ := h
  obtain ⟨ha0, ha1⟩ := clip_mem (apcg_adjusted input sa ra).1 0 1 (by norm_num)
  obtain ⟨hb0, hb1⟩ := clip_mem (apcg_adjusted input sa ra).2.1 0 1 (by norm_num)
  obtain ⟨hc0, hc1⟩ := clip_mem (apcg_adjusted input sa ra).2.2 0 1 (by norm_num)
  have eR : (apply_professional_color_grading input sa ra).1 =
      clip (input.1 * (85/100) + (clip3 (apcg_adjusted input sa ra) 0 1).1 * (1 - 85/100)) 0 1 := rfl
  have eG : (apply_professional_color_grading input sa ra).2.1 =
      clip (input.2.1 * (85/100) + (clip3 (apcg_adjusted input sa ra) 0 1).2.1 * (1 - 85/100)) 0 1 := rfl
  have eB : (apply_professional_color_grading input sa ra).2.2 =
      clip (input.2.2 * (85/100) + (clip3 (apcg_adjusted input sa ra) 0 1).2.2 * (1 - 85/100)) 0 1 := rfl
  have bR := blend_channel input.1 ((clip3 (apcg_adjusted input sa ra) 0 1).1) h1 h2 ha0 ha1
  have bG := blend_channel input.2.1 ((clip3 (apcg_adjusted input sa ra) 0 1).2.1) h3 h4 hb0 hb1
  have bB := blend_channel input.2.2 ((clip3 (apcg_adjusted input sa ra) 0 1).2.2) h5 h6 hc0 hc1
  refine ⟨?_, ⟨?_, ?_, ?_⟩, ?_, ?_, ?_⟩
  · show (_, _, _) = _
    unfold clip3
    norm_num
  · rw [eR]; exact bR.2.1
  · rw [eG]; exact bG.2.1
  · rw [eB]; exact bB.2.1
  · rw [eR]; exact bR.2.2
  · rw [eG]; exact bG.2.2
  · rw [eB]; exact bB.2.2

/-- Witness for C5 at input (1/2,1/2,1/2) and the all-zero analysis records. -/
theorem C5_professional_grading_blend_witness :
    In01c ((1/2 : ℚ), (1/2 : ℚ), (1/2 : ℚ)) ∧
      |(apply_professional_color_grading (1/2, 1/2, 1/2) zeroImgAnalysis zeroImgAnalysis).1 -
        (1/2 : ℚ)| ≤ 15/100 :=
  ⟨by norm_num [In01c, In01],
    (C5_professional_grading_blend (1/2, 1/2, 1/2) zeroImgAnalysis zeroImgAnalysis
        (by norm_num [In01c, In01])).2.2.1⟩

/-- C10: a voxel of `create_adaptive_lut` whose identity input color has
luminance at most 0.02 is mapped to itself exactly, whatever the reference
statistics; in particular pure black stays pure black. -/
theorem C10_dark_voxel_identity (a : RefAnalysis) (r g b : ℕ)
    (hr : r ≤ 32) (hg : g ≤ 32) (hb : b ≤ 32)
    (h : lum3 ((r : ℚ)/32) ((g : ℚ)/32) ((b : ℚ)/32) ≤ 1/50) :
    create_adaptive_lut a r g b = ((r : ℚ)/32, (g : ℚ)/32, (b : ℚ)/32) := by
  have h32 : ((LUT_SIZE : ℚ) - 1) = 32 := by norm_num [LUT_SIZE]
  have hr0 : (0:ℚ) ≤ (r:ℚ)/32 := by positivity
  have hg0 : (0:ℚ) ≤ (g:ℚ)/32 := by positivity
  have hb0 : (0:ℚ) ≤ (b:ℚ)/32 := by positivity
  have hr1 : (r:ℚ)/32 ≤ 1 := by
    rw [div_le_one (by norm_num : (0:ℚ) < 32)]
    exact_mod_cast hr
  have hg1 : (g:ℚ)/32 ≤ 1 := by
    rw [div_le_one (by norm_num : (0:ℚ) < 32)]
    exact_mod_cast hg
  have hb1 : (b:ℚ)/32 ≤ 1 := by
    rw [div_le_one (by norm_num : (0:ℚ) < 32)]
    exact_mod_cast hb
  simp only [create_adaptive_lut, adaptiveVoxel, h32]
  rw [if_neg (not_lt.mpr h)]
  rw [clip_of_mem _ _ _ hr0 hr1, clip_of_mem _ _ _ hg0 hg1, clip_of_mem _ _ _ hb0 hb1]

/-- Witness for C10 at the pure-black voxel. -/
theorem C10_dark_voxel_identity_witness :
    lum3 (((0:ℕ) : ℚ)/32) (((0:ℕ) : ℚ)/32) (((0:ℕ) : ℚ)/32) ≤ 1/50 ∧
      create_adaptive_lut refRecordCE 0 0 0 =
        ((((0:ℕ) : ℚ))/32, (((0:ℕ) : ℚ))/32, (((0:ℕ) : ℚ))/32) :=
  ⟨by norm_num [lum3],
    C10_dark_voxel_identity refRecordCE 0 0 0 (by norm_num) (by norm_num) (by norm_num)
      (by norm_num [lum3])⟩

theorem dev_noMul (inp s : ℚ) (hs : |s| ≤ 147/1000) : |(inp + s) - inp| ≤ 19/125 := by
  rw [show inp + s - inp = s from by ring]
  rw [abs_le] at *
  constructor <;> linarith [hs.1, hs.2]

theorem dev_mdown (inp s m : ℚ) (h0 : 0 ≤ inp) (h1 : inp ≤ 1)
    (hs1 : -(12/100) ≤ s) (hs2 : s ≤ 147/1000)
    (hm1 : 1979/2000 ≤ m) (hm2 : m ≤ 1) :
    |(inp + s) * m - inp| ≤ 19/125 := by
  have hm0 : (0:ℚ) ≤ m := by linarith
  rw [show (inp + s) * m - inp = s * m + inp * (m - 1) from by ring, abs_le]
  constructor
  · have t1 : -(12/100) ≤ s * m := by
      rcases le_or_lt 0 s with hs | hs
      · nlinarith [mul_nonneg hs hm0]
      · nlinarith [mul_nonneg (neg_nonneg.mpr hs.le) (sub_nonneg.mpr hm2)]
    have t2 : -(21/2000) ≤ inp * (m - 1) := by
      nlinarith [mul_nonneg (sub_nonneg.mpr h1) (sub_nonneg.mpr hm2)]
    linarith
  · have t1 : s * m ≤ 147/1000 := by
      rcases le_or_lt 0 s with hs | hs
      · nlinarith [mul_nonneg hs (sub_nonneg.mpr hm2)]
      · nlinarith [mul_nonneg (neg_nonneg.mpr hs.le) hm0]
    have t2 : inp * (m - 1) ≤ 0 := by
      nlinarith [mul_nonneg h0 (sub_nonneg.mpr hm2)]
    linarith

theorem dev_mup (inp s m : ℚ) (h0 : 0 ≤ inp) (h1 : inp ≤ 1)
    (hs1 : -(12/100) ≤ s) (hs2 : s ≤ 1206/10000)
    (hm1 : 1 ≤ m) (hm2 : m ≤ 203/200) :
    |(inp + s) * m - inp| ≤ 19/125 := by
  have hm0 : (0:ℚ) ≤ m := by linarith
  rw [show (inp + s) * m - inp = s * m + inp * (m - 1) from by ring, abs_le]
  constructor
  · have t1 : -(12/100) * (203/200) ≤ s * m := by
      rcases le_or_lt 0 s with hs | hs
      · nlinarith [mul_nonneg hs hm0]
      · nlinarith [mul_nonneg (neg_nonneg.mpr hs.le) (sub_nonneg.mpr hm2)]
    have t2 : 0 ≤ inp * (m - 1) := mul_nonneg h0 (by linarith)
    linarith
  · have t1 : s * m ≤ (1206/10000) * (203/200) := by
      rcases le_or_lt 0 s with hs | hs
      · nlinarith [mul_nonneg hs (sub_nonneg.mpr hm2), mul_le_mul_of_nonneg_left hm2 hs]
      · nlinarith [mul_nonneg (neg_nonneg.mpr hs.le) hm0]
    have t2 : inp * (m - 1) ≤ 3/200 := by
      nlinarith [mul_nonneg (sub_nonneg.mpr h1) (sub_nonneg.mpr hm1)]
    linarith

theorem dev_mup_shadow (inp ref l m c : ℚ) (h0 : 0 ≤ inp) (h1 : inp ≤ 1)
    (hr0 : 0 ≤ ref) (hr1 : ref ≤ 1) (hl1 : 1/50 < l) (hl2 : l < 33/100)
    (hc : 114/1000 ≤ c) (hcl : c * inp ≤ l)
    (hm1 : 1 ≤ m) (hm2 : m ≤ 203/200) :
    |(inp + (ref - l) * (15/100)) * m - inp| ≤ 19/125 := by
  have hm0 : (0:ℚ) ≤ m := by linarith
  have hs_hi : (ref - l) * (15/100) ≤ (15/100) * (1 - l) := by nlinarith
  have hs_lo : -(33/100) * (15/100) ≤ (ref - l) * (15/100) := by nlinarith
  have hinp_l : 114/1000 * inp ≤ l :=
    le_trans (by nlinarith [mul_nonneg (sub_nonneg.mpr hc) h0]) hcl
  rw [show (inp + (ref - l) * (15/100)) * m - inp =
      ((ref - l) * (15/100)) * m + inp * (m - 1) from by ring, abs_le]
  have t2hi : inp * (m - 1) ≤ inp * (3/200) :=
    mul_le_mul_of_nonneg_left (by linarith) h0
  have t2lo : 0 ≤ inp * (m - 1) := mul_nonneg h0 (by linarith)
  constructor
  · have t1 : -(33/100) * (15/100) * (203/200) ≤ ((ref - l) * (15/100)) * m := by
      rcases le_or_lt 0 ((ref - l) * (15/100)) with hs | hs
      · nlinarith [mul_nonneg hs hm0]
      · nlinarith [mul_nonneg (neg_nonneg.mpr hs.le) (sub_nonneg.mpr hm2)]
    linarith
  · rcases le_or_lt 0 ((ref - l) * (15/100)) with hs | hs
    · have u1 : ((ref - l) * (15/100)) * m ≤ ((ref - l) * (15/100)) * (203/200) :=
        mul_le_mul_of_nonneg_left hm2 hs
      have u2 : ((ref - l) * (15/100)) * (203/200) ≤ (15/100) * (1 - l) * (203/200) := by
        nlinarith
      linarith
    · have u1 : ((ref - l) * (15/100)) * m ≤ 0 := by
        nlinarith [mul_nonneg (neg_nonneg.mpr hs.le) hm0]
      linarith

theorem chan_bound (v t : ℚ) (h0 : 0 ≤ t) (h1 : t ≤ 1) (hd : |v - t| ≤ 19/125) :
    In01 (clip v 0 1) ∧ |clip v 0 1 - t| ≤ 19/125 :=
  ⟨⟨(clip_mem v 0 1 (by norm_num)).1, (clip_mem v 0 1 (by norm_num)).2⟩,
    le_trans (clip_dev v t h0 h1) hd⟩

theorem adaptiveVoxel_dev (a : RefAnalysis) (hA : ValidRefStats a) (x y z : ℚ)
    (hx0 : 0 ≤ x) (hx1 : x ≤ 1) (hy0 : 0 ≤ y) (hy1 : y ≤ 1) (hz0 : 0 ≤ z) (hz1 : z ≤ 1) :
    In01c (adaptiveVoxel a x y z) ∧
      |(adaptiveVoxel a x y z).1 - x| ≤ 19/125 ∧
      |(adaptiveVoxel a x y z).2.1 - y| ≤ 19/125 ∧
      |(adaptiveVoxel a x y z).2.2 - z| ≤ 19/125 := by
  unfold ValidRefStats In01c In01 at hA
  obtain ⟨⟨⟨hS1a, hS1b⟩, ⟨hS2a, hS2b⟩, hS3a, hS3b⟩,
    ⟨⟨hM1a, hM1b⟩, ⟨hM2a, hM2b⟩, hM3a, hM3b⟩,
    ⟨⟨hH1a, hH1b⟩, ⟨hH2a, hH2b⟩, hH3a, hH3b⟩, hws⟩ := hA
  have hl0 : 0 ≤ lum3 x y z := by unfold lum3; linarith
  have hl1 : lum3 x y z ≤ 1 := by unfold lum3; linarith
  have hxl : 299/1000 * x ≤ lum3 x y z := by unfold lum3; linarith
  have hzl : 114/1000 * z ≤ lum3 x y z := by unfold lum3; linarith
  have hw0 : 0 ≤ min a.warmth_strength (3/10) := le_min hws (by norm_num)
  have hw1 : min a.warmth_strength (3/10) ≤ 3/10 := min_le_right _ _
  have mup1 : 1 ≤ 1 + 1/20 * min a.warmth_strength (3/10) := by linarith
  have mup2 : 1 + 1/20 * min a.warmth_strength (3/10) ≤ 203/200 := by linarith
  have mdn1 : 1979/2000 ≤ 1 - 1/20 * min a.warmth_strength (3/10) * (7/10) := by linarith
  have mdn2 : 1 - 1/20 * min a.warmth_strength (3/10) * (7/10) ≤ 1 := by linarith
  simp only [adaptiveVoxel]
  by_cases hl : lum3 x y z > 1/50
  · rw [if_pos hl]
    have habs : |(-(1/20) : ℚ)| = 1/20 := by
      rw [abs_neg]
      exact abs_of_nonneg (by norm_num)
    rcases htb : a.temperature_bias with _ | _
    · have hcond : (TempBias.warm = TempBias.warm) = True := by simp
      simp only [htb, hcond, if_true]
      by_cases hb1 : lum3 x y z < 33/100
      · rw [if_pos hb1, if_pos hb1, if_pos hb1]
        have dR := dev_mup_shadow x a.dominant_colors.shadows.1 (lum3 x y z)
          (1 + 1/20 * min a.warmth_strength (3/10)) (299/1000)
          hx0 hx1 hS1a hS1b hl hb1 (by norm_num) hxl mup1 mup2
        have dG := dev_noMul y ((a.dominant_colors.shadows.2.1 - lum3 x y z) * (15/100))
          (by rw [abs_le]; constructor <;> linarith)
        have dB := dev_mdown z ((a.dominant_colors.shadows.2.2 - lum3 x y z) * (15/100))
          (1 - 1/20 * min a.warmth_strength (3/10) * (7/10))
          hz0 hz1 (by linarith) (by linarith) mdn1 mdn2
        obtain ⟨iR, bR⟩ := chan_bound _ x hx0 hx1 dR
        obtain ⟨iG, bG⟩ := chan_bound _ y hy0 hy1 dG
        obtain ⟨iB, bB⟩ := chan_bound _ z hz0 hz1 dB
        exact ⟨⟨iR, iG, iB⟩, bR, bG, bB⟩
      · rw [if_neg hb1, if_neg hb1, if_neg hb1]
        have hge : 33/100 ≤ lum3 x y z := not_lt.mp hb1
        by_cases hb2 : lum3 x y z > 66/100
        · rw [if_pos hb2, if_pos hb2, if_pos hb2]
          have dR := dev_mup x ((a.dominant_colors.highlights.1 - lum3 x y z) * (12/100))
            (1 + 1/20 * min a.warmth_strength (3/10))
            hx0 hx1 (by linarith) (by linarith) mup1 mup2
          have dG := dev_noMul y ((a.dominant_colors.highlights.2.1 - lum3 x y z) * (12/100))
            (by rw [abs_le]; constructor <;> linarith)
          have dB := dev_mdown z ((a.dominant_colors.highlights.2.2 - lum3 x y z) * (12/100))
            (1 - 1/20 * min a.warmth_strength (3/10) * (7/10))
            hz0 hz1 (by linarith) (by linarith) mdn1 mdn2
          obtain ⟨iR, bR⟩ := chan_bound _ x hx0 hx1 dR
          obtain ⟨iG, bG⟩ := chan_bound _ y hy0 hy1 dG
          obtain ⟨iB, bB⟩ := chan_bound _ z hz0 hz1 dB
          exact ⟨⟨iR, iG, iB⟩, bR, bG, bB⟩
        · rw [if_neg hb2, if_neg hb2, if_neg hb2]
          have hle : lum3 x y z ≤ 66/100 := not_lt.mp hb2
          have dR := dev_mup x ((a.dominant_colors.midtones.1 - lum3 x y z) * (18/100))
            (1 + 1/20 * min a.warmth_strength (3/10))
            hx0 hx1 (by linarith) (by linarith) mup1 mup2
          have dG := dev_noMul y ((a.dominant_colors.midtones.2.1 - lum3 x y z) * (18/100))
            (by rw [abs_le]; constructor <;> linarith)
          have dB := dev_mdown z ((a.dominant_colors.midtones.2.2 - lum3 x y z) * (18/100))
            (1 - 1/20 * min a.warmth_strength (3/10) * (7/10))
            hz0 hz1 (by linarith) (by linarith) mdn1 mdn2
          obtain ⟨iR, bR⟩ := chan_bound _ x hx0 hx1 dR
          obtain ⟨iG, bG⟩ := chan_bound _ y hy0 hy1 dG
          obtain ⟨iB, bB⟩ := chan_bound _ z hz0 hz1 dB
          exact ⟨⟨iR, iG, iB⟩, bR, bG, bB⟩
    · have hcond : (TempBias.cool = TempBias.warm) = False := by simp
      simp only [htb, hcond, if_false, habs]
      by_cases hb1 : lum3 x y z < 33/100
      · rw [if_pos hb1, if_pos hb1, if_pos hb1]
        have dR := dev_mdown x ((a.dominant_colors.shadows.1 - lum3 x y z) * (15/100))
          (1 - 1/20 * min a.warmth_strength (3/10) * (7/10))
          hx0 hx1 (by linarith) (by linarith) mdn1 mdn2
        have dG := dev_noMul y ((a.dominant_colors.shadows.2.1 - lum3 x y z) * (15/100))
          (by rw [abs_le]; constructor <;> linarith)
        have dB := dev_mup_shadow z a.dominant_colors.shadows.2.2 (lum3 x y z)
          (1 + 1/20 * min a.warmth_strength (3/10)) (114/1000)
          hz0 hz1 hS3a hS3b hl hb1 (by norm_num) hzl mup1 mup2
        obtain ⟨iR, bR⟩ := chan_bound _ x hx0 hx1 dR
        obtain ⟨iG, bG⟩ := chan_bound _ y hy0 hy1 dG
        obtain ⟨iB, bB⟩ := chan_bound _ z hz0 hz1 dB
        exact ⟨⟨iR, iG, iB⟩, bR, bG, bB⟩
      · rw [if_neg hb1, if_neg hb1, if_neg hb1]
        have hge : 33/100 ≤ lum3 x y z := not_lt.mp hb1
        by_cases hb2 : lum3 x y z > 66/100
        · rw [if_pos hb2, if_pos hb2, if_pos hb2]
          have dR := dev_mdown x ((a.dominant_colors.highlights.1 - lum3 x y z) * (12/100))
            (1 - 1/20 * min a.warmth_strength (3/10) * (7/10))
            hx0 hx1 (by linarith) (by linarith) mdn1 mdn2
          have dG := dev_noMul y ((a.dominant_colors.highlights.2.1 - lum3 x y z) * (12/100))
            (by rw [abs_le]; constructor <;> linarith)
          have dB := dev_mup z ((a.dominant_colors.highlights.2.2 - lum3 x y z) * (12/100))
            (1 + 1/20 * min a.warmth_strength (3/10))
            hz0 hz1 (by linarith) (by linarith) mup1 mup2
          obtain ⟨iR, bR⟩ := chan_bound _ x hx0 hx1 dR
          obtain ⟨iG, bG⟩ := chan_bound _ y hy0 hy1 dG
          obtain ⟨iB, bB⟩ := chan_bound _ z hz0 hz1 dB
          exact ⟨⟨iR, iG, iB⟩, bR, bG, bB⟩
        · rw [if_neg hb2, if_neg hb2, if_neg hb2]
          have hle : lum3 x y z ≤ 66/100 := not_lt.mp hb2
          have dR := dev_mdown x ((a.dominant_colors.midtones.1 - lum3 x y z) * (18/100))
            (1 - 1/20 * min a.warmth_strength (3/10) * (7/10))
            hx0 hx1 (by linarith) (by linarith) mdn1 mdn2
          have dG := dev_noMul y ((a.dominant_colors.midtones.2.1 - lum3 x y z) * (18/100))
            (by rw [abs_le]; constructor <;> linarith)
          have dB := dev_mup z ((a.dominant_colors.midtones.2.2 - lum3 x y z) * (18/100))
            (1 + 1/20 * min a.warmth_strength (3/10))
            hz0 hz1 (by linarith) (by linarith) mup1 mup2
          obtain ⟨iR, bR⟩ := chan_bound _ x hx0 hx1 dR
          obtain ⟨iG, bG⟩ := chan_bound _ y hy0 hy1 dG
          obtain ⟨iB, bB⟩ := chan_bound _ z hz0 hz1 dB
          exact ⟨⟨iR, iG, iB⟩, bR, bG, bB⟩
  · rw [if_neg hl]
    rw [clip_of_mem x 0 1 hx0 hx1, clip_of_mem y 0 1 hy0 hy1, clip_of_mem z 0 1 hz0 hz1]
    refine ⟨⟨⟨hx0, hx1⟩, ⟨hy0, hy1⟩, hz0, hz1⟩, ?_, ?_, ?_⟩ <;> norm_num

theorem grid_coord_mem (k : ℕ) (hk : k ≤ 32) : 0 ≤ (k:ℚ)/32 ∧ (k:ℚ)/32 ≤ 1 :=
  ⟨by positivity, by
    rw [div_le_one (by norm_num : (0:ℚ) < 32)]
    exact_mod_cast hk⟩

/-- C4 counterexample: a record with band means in [0,1] (cool bias, shadow
mean (0,0,1), warmth strength 0.3) drives voxel (0,0,6) of
`create_adaptive_lut` to a blue deviation of 4857861/32000000 ≈ 0.1518 from
its identity value 6/32, exceeding the claimed 0.15 bound. -/
theorem C4_deviation_counterexample :
    ValidRefStats refRecordCE ∧
      ¬(|(create_adaptive_lut refRecordCE 0 0 6).2.2 - (6 : ℚ)/32| ≤ 15/100) := by
  constructor
  · norm_num [ValidRefStats, refRecordCE, In01c, In01]
  · have he : (create_adaptive_lut refRecordCE 0 0 6).2.2 - (6 : ℚ)/32 = 4857861/32000000 := by
      have hcw : (TempBias.cool = TempBias.warm) = False := by simp
      norm_num [create_adaptive_lut, adaptiveVoxel, refRecordCE, luminance, lum3, LUT_SIZE,
        clip, hcw]
      rw [abs_of_nonneg (by norm_num : (0:ℚ) ≤ 1/20)]
      rw [show (53487/160000 : ℚ) * (1 + 1/20 * (3/10)) = 10857861/32000000 by norm_num]
      rw [min_eq_left (by norm_num), max_eq_right (by norm_num)]
      norm_num
    intro hle
    rw [show (create_adaptive_lut refRecordCE 0 0 6).2.2 - (6 : ℚ)/32 =
      ((create_adaptive_lut refRecordCE 0 0 6).2.2 - (6 : ℚ)/32) from rfl, he] at hle
    rw [abs_of_nonneg (by norm_num : (0:ℚ) ≤ 4857861/32000000)] at hle
    norm_num at hle

/-- C4 (amended): for every reference-statistics record with per-band mean
colors in [0,1] and non-negative warmth strength (as
`analyze_reference_colors` always produces — first conjunct), every value of
the grid returned by `create_adaptive_lut` lies in [0,1] and the per-channel
deviation from the identity value never exceeds 0.152 (the source bound 0.15
fails, see the counterexample; the true maximum over the grid is
4857861/32000000 ≈ 0.1518). -/
theorem C4_adaptive_lut_bounds :
    (∀ img : Img, 0 ≤ (analyze_reference_colors img).warmth_strength) ∧
    ∀ (a : RefAnalysis), ValidRefStats a → ∀ (r g b : ℕ), r ≤ 32 → g ≤ 32 → b ≤ 32 →
      In01c (create_adaptive_lut a r g b) ∧
        |(create_adaptive_lut a r g b).1 - (r : ℚ)/32| ≤ 19/125 ∧
        |(create_adaptive_lut a r g b).2.1 - (g : ℚ)/32| ≤ 19/125 ∧
        |(create_adaptive_lut a r g b).2.2 - (b : ℚ)/32| ≤ 19/125 := by
  constructor
  · intro img
    simp only [analyze_reference_colors]
    split_ifs with h
    · linarith
    · linarith [not_lt.mp h]
  · intro a hA r g b hr hg hb
    have h32 : ((LUT_SIZE : ℚ) - 1) = 32 := by norm_num [LUT_SIZE]
    have e : create_adaptive_lut a r g b =
        adaptiveVoxel a ((r:ℚ)/32) ((g:ℚ)/32) ((b:ℚ)/32) := by
      simp only [create_adaptive_lut, h32]
    rw [e]
    exact adaptiveVoxel_dev a hA _ _ _ (grid_coord_mem r hr).1 (grid_coord_mem r hr).2
      (grid_coord_mem g hg).1 (grid_coord_mem g hg).2
      (grid_coord_mem b hb).1 (grid_coord_mem b hb).2

/-- Witness for C4 (amended) at the counterexample record and voxel (0,0,6). -/
theorem C4_adaptive_lut_bounds_witness :
    ValidRefStats refRecordCE ∧
      In01c (create_adaptive_lut refRecordCE 0 0 6) ∧
      |(create_adaptive_lut refRecordCE 0 0 6).2.2 - ((6:ℕ) : ℚ)/32| ≤ 19/125 :=
  ⟨by norm_num [ValidRefStats, refRecordCE, In01c, In01],
    (C4_adaptive_lut_bounds.2 refRecordCE
      (by norm_num [ValidRefStats, refRecordCE, In01c, In01]) 0 0 6
      (by norm_num) (by norm_num) (by norm_num)).1,
    (C4_adaptive_lut_bounds.2 refRecordCE
      (by norm_num [ValidRefStats, refRecordCE, In01c, In01]) 0 0 6
      (by norm_num) (by norm_num) (by norm_num)).2.2.2⟩

theorem dropWhile_cons_false {α} (p : α → Bool) (c : α) (t : List α) (hc : p c = false) :
    (c :: t).dropWhile p = c :: t := by
  simp [List.dropWhile, hc]

theorem takeWhile_all {α} (p : α → Bool) :
    ∀ s : List α, (∀ c ∈ s, p c = true) → s.takeWhile p = s ∧ s.dropWhile p = []
  | [], _ => ⟨rfl, rfl⟩
  | c :: t, h => by
    have hc : p c = true := h c (List.mem_cons_self c t)
    have ih := takeWhile_all p t (fun d hd => h d (List.mem_cons_of_mem c hd))
    simp [List.takeWhile, List.dropWhile, hc, ih.1, ih.2]

theorem takedrop_app {α} (p : α → Bool) :
    ∀ (xs : List α) (y : α) (ys : List α), (∀ c ∈ xs, p c = true) → p y = false →
      ((xs ++ y :: ys).takeWhile p = xs ∧ (xs ++ y :: ys).dropWhile p = y :: ys)
  | [], y, ys, _, hy => by simp [List.takeWhile, List.dropWhile, hy]
  | c :: t, y, ys, hx, hy => by
    have hc : p c = true := hx c (List.mem_cons_self c t)
    have ih := takedrop_app p t y ys (fun d hd => hx d (List.mem_cons_of_mem c hd)) hy
    simp [List.takeWhile, List.dropWhile, hc, ih.1, ih.2]

theorem isPrefixOf_self_append : ∀ (l r : List Char), l.isPrefixOf (l ++ r) = true
  | [], _ => by simp [List.isPrefixOf]
  | c :: t, r => by simp [List.isPrefixOf, isPrefixOf_self_append t r]

theorem isPrefixOf_cons_ne (a : Char) (p : List Char) (c : Char) (t : List Char)
    (h : ¬(a = c)) : (a :: p).isPrefixOf (c :: t) = false := by
  simp [List.isPrefixOf, h]

theorem digits09_facts : ∀ c ∈ digits09,
    c.isDigit = true ∧ c.isWhitespace = false ∧ ¬(c = '\n') ∧ ¬(c = '#') ∧ ¬(c = 'L') ∧
      ¬(c = '-') ∧ ¬(c = '+') := by decide

theorem digitChar_mem (d : ℕ) (h : d < 10) : Nat.digitChar d ∈ digits09 := by
  interval_cases d <;> decide

theorem digitChar_toNat (d : ℕ) (h : d < 10) : (Nat.digitChar d).toNat - 48 = d := by
  interval_cases d <;> decide

theorem natDigitsAux_mem : ∀ (fuel n : ℕ), ∀ c ∈ natDigitsAux fuel n, c ∈ digits09
  | 0, _ => by simp [natDigitsAux]
  | fuel + 1, n => by
    by_cases h : n = 0
    · simp [natDigitsAux, h]
    · simp only [natDigitsAux, h, if_false]
      intro c hc
      rcases List.mem_append.mp hc with h1 | h1
      · exact natDigitsAux_mem fuel (n / 10) c h1
      · rw [List.mem_singleton.mp h1]
        exact digitChar_mem _ (Nat.mod_lt n (by norm_num))

theorem digitsVal_append_singleton (xs : List Char) (c : Char) :
    digitsVal (xs ++ [c]) = 10 * digitsVal xs + (c.toNat - 48) := by
  simp [digitsVal, List.foldl_append]

theorem natDigitsAux_val : ∀ (fuel n : ℕ), n ≤ fuel → digitsVal (natDigitsAux fuel n) = n
  | 0, n, h => by
    interval_cases n
    simp [natDigitsAux, digitsVal]
  | fuel + 1, n, h => by
    by_cases h0 : n = 0
    · simp [natDigitsAux, h0, digitsVal]
    · have hdiv : n / 10 ≤ fuel := by
        have := Nat.div_lt_self (Nat.pos_of_ne_zero h0) (by norm_num : 1 < 10)
        omega
      simp only [natDigitsAux, h0, if_false]
      rw [digitsVal_append_singleton, natDigitsAux_val fuel (n / 10) hdiv,
        digitChar_toNat _ (Nat.mod_lt n (by norm_num))]
      omega

theorem natDigitsAux_len : ∀ (fuel n k : ℕ), n ≤ fuel → n < 10 ^ k →
    (natDigitsAux fuel n).length ≤ k
  | 0, _, _, _, _ => by simp [natDigitsAux]
  | fuel + 1, n, k, h, hk => by
    by_cases h0 : n = 0
    · simp [natDigitsAux, h0]
    · have hk0 : k ≠ 0 := by
        rintro rfl
        exact h0 (by omega)
      have hdiv : n / 10 ≤ fuel := by
        have := Nat.div_lt_self (Nat.pos_of_ne_zero h0) (by norm_num : 1 < 10)
        omega
      have hdk : n / 10 < 10 ^ (k - 1) := by
        rw [Nat.div_lt_iff_lt_mul (by norm_num : 0 < 10)]
        calc n < 10 ^ k := hk
        _ = 10 ^ (k - 1) * 10 := by
          rw [← pow_succ]
          congr 1
          omega
      simp only [natDigitsAux, h0, if_false, List.length_append, List.length_singleton]
      have := natDigitsAux_len fuel (n / 10) (k - 1) hdiv hdk
      omega

theorem natChars_mem (n : ℕ) : ∀ c ∈ natChars n, c ∈ digits09 := by
  unfold natChars
  split_ifs
  · intro c hc
    rw [List.mem_singleton.mp hc]
    decide
  · exact natDigitsAux_mem n n

theorem natChars_ne_nil (n : ℕ) : natChars n ≠ [] := by
  unfold natChars
  split_ifs with h
  · simp
  · cases n with
    | zero => exact absurd rfl h
    | succ m =>
      simp only [natDigitsAux, h, if_false]
      simp

theorem digitsVal_natChars (n : ℕ) : digitsVal (natChars n) = n := by
  unfold natChars
  split_ifs with h
  · subst h
    decide
  · exact natDigitsAux_val n n le_rfl

theorem natChars_len (n k : ℕ) (h1 : n < 10 ^ k) (h2 : 1 ≤ k) : (natChars n).length ≤ k := by
  unfold natChars
  split_ifs
  · simpa using h2
  · exact natDigitsAux_len n n k le_rfl h1

theorem fracChars_mem (m : ℕ) : ∀ c ∈ fracChars m, c ∈ digits09 := by
  unfold fracChars
  intro c hc
  rcases List.mem_append.mp hc with h | h
  · rw [List.eq_of_mem_replicate h]
    decide
  · exact natChars_mem m c h

theorem fracChars_len (m : ℕ) (h : m < 10 ^ 6) : (fracChars m).length = 6 := by
  unfold fracChars
  rw [List.length_append, List.length_replicate]
  have := natChars_len m 6 h (by norm_num)
  omega

theorem digitsVal_replicate_zero : ∀ (k : ℕ) (s : List Char),
    digitsVal (List.replicate k '0' ++ s) = digitsVal s
  | 0, s => by simp
  | k + 1, s => by
    have h0 : (10 * 0 + ('0'.toNat - 48)) = 0 := by decide
    show digitsVal ('0' :: (List.replicate k '0' ++ s)) = digitsVal s
    unfold digitsVal
    rw [List.foldl_cons, h0]
    exact digitsVal_replicate_zero k s

theorem digitsVal_fracChars (m : ℕ) : digitsVal (fracChars m) = m := by
  unfold fracChars
  rw [digitsVal_replicate_zero, digitsVal_natChars]

theorem pyFloatPos_fmt6Body (m : ℕ) : pyFloatPos (fmt6Body m) = some ((m : ℚ) / 1000000) := by
  have hdig : ∀ c ∈ natChars (m / 1000000), Char.isDigit c = true := fun c hc =>
    (digits09_facts c (natChars_mem _ c hc)).1
  have hdot : Char.isDigit '.' = false := by decide
  obtain ⟨ht, hd⟩ := takedrop_app Char.isDigit (natChars (m / 1000000)) '.'
    (fracChars (m % 1000000)) hdig hdot
  have hfrac : ∀ c ∈ fracChars (m % 1000000), Char.isDigit c = true := fun c hc =>
    (digits09_facts c (fracChars_mem _ c hc)).1
  obtain ⟨ht2, hd2⟩ := takeWhile_all Char.isDigit (fracChars (m % 1000000)) hfrac
  have hip : (natChars (m / 1000000)).isEmpty = false := by
    rw [List.isEmpty_eq_false_iff_exists_mem]
    obtain ⟨c, t, he⟩ := List.exists_cons_of_ne_nil (natChars_ne_nil (m / 1000000))
    exact ⟨c, he ▸ List.mem_cons_self c t⟩
  unfold fmt6Body pyFloatPos
  rw [ht, hd]
  simp only [ht2, hd2, hip, List.isEmpty_nil, eq_self_iff_true, if_true, Bool.false_and,
    Bool.not_false, Bool.and_true]
  rw [digitsVal_natChars, digitsVal_fracChars,
    fracChars_len _ (Nat.mod_lt m (by norm_num) : m % 1000000 < 1000000)]
  have hnat : 1000000 * (m / 1000000) + m % 1000000 = m := Nat.div_add_mod m 1000000
  have key : ((m / 1000000 : ℕ) : ℚ) + ((m % 1000000 : ℕ) : ℚ) / (10 : ℚ) ^ (6 : ℕ) =
      (m : ℚ) / 1000000 := by
    rw [show ((m : ℚ)) = ((1000000 * (m / 1000000) + m % 1000000 : ℕ) : ℚ) from by rw [hnat]]
    push_cast
    field_simp
    ring
  rw [key]

theorem fmt6Body_mem (m : ℕ) : ∀ c ∈ fmt6Body m, c ∈ '.' :: digits09 := by
  unfold fmt6Body
  intro c hc
  rcases List.mem_append.mp hc with h | h
  · exact List.mem_cons_of_mem _ (natChars_mem _ c h)
  · rcases List.mem_cons.mp h with h1 | h1
    · rw [h1]; exact List.mem_cons_self _ _
    · exact List.mem_cons_of_mem _ (fracChars_mem _ c h1)

theorem fmt6_mem (q : ℚ) : ∀ c ∈ fmt6 q, c ∈ '-' :: '.' :: digits09 := by
  simp only [fmt6]
  split_ifs
  · intro c hc
    rcases List.mem_cons.mp hc with h1 | h1
    · rw [h1]; exact List.mem_cons_self _ _
    · exact List.mem_cons_of_mem _ (fmt6Body_mem _ c h1)
  · intro c hc
    exact List.mem_cons_of_mem _ (fmt6Body_mem _ c hc)

theorem class_facts (c : Char) (h : c ∈ '-' :: '.' :: digits09) :
    c.isWhitespace = false ∧ ¬(c = '\n') ∧ ¬(c = '#') ∧ ¬(c = 'L') := by
  rcases List.mem_cons.mp h with h1 | h1
  · subst h1; refine ⟨by decide, by decide, by decide, by decide⟩
  · rcases List.mem_cons.mp h1 with h2 | h2
    · subst h2; refine ⟨by decide, by decide, by decide, by decide⟩
    · obtain ⟨_, hw, hn, hh, hl, _, _⟩ := digits09_facts c h2
      exact ⟨hw, hn, hh, hl⟩

theorem fmt6Body_head (m : ℕ) : ∃ c t, fmt6Body m = c :: t ∧ c ∈ digits09 := by
  obtain ⟨c, t, he⟩ := List.exists_cons_of_ne_nil (natChars_ne_nil (m / 1000000))
  refine ⟨c, t ++ '.' :: fracChars (m % 1000000), ?_, ?_⟩
  · unfold fmt6Body
    rw [he]
    rfl
  · exact natChars_mem _ c (he ▸ List.mem_cons_self c t)

theorem fmt6_head (q : ℚ) : ∃ c t, fmt6 q = c :: t ∧ c ∈ '-' :: digits09 := by
  simp only [fmt6]
  split_ifs
  · exact ⟨'-', _, rfl, List.mem_cons_self _ _⟩
  · obtain ⟨c, t, he, hc⟩ := fmt6Body_head _
    exact ⟨c, t, he, List.mem_cons_of_mem _ hc⟩

theorem fmt6_ne_nil (q : ℚ) : fmt6 q ≠ [] := by
  obtain ⟨c, t, he, _⟩ := fmt6_head q
  rw [he]
  simp

theorem pyFloatVal_fmt6 (q : ℚ) :
    pyFloatVal (fmt6 q) = some (((round (q * 1000000) : ℤ) : ℚ) / 1000000) := by
  simp only [fmt6]
  split_ifs with hn
  · show pyFloatVal ('-' :: fmt6Body _) = _
    simp only [pyFloatVal, eq_self_iff_true, if_true]
    rw [pyFloatPos_fmt6Body]
    have h1 : (((round (q * 1000000)).natAbs : ℕ) : ℤ) = -(round (q * 1000000)) :=
      Int.ofNat_natAbs_of_nonpos (le_of_lt hn)
    have hcast : ((round (q * 1000000)).natAbs : ℚ) = -((round (q * 1000000) : ℤ) : ℚ) := by
      calc ((round (q * 1000000)).natAbs : ℚ)
          = ((((round (q * 1000000)).natAbs : ℕ) : ℤ) : ℚ) := (Int.cast_natCast _).symm
        _ = ((-(round (q * 1000000)) : ℤ) : ℚ) := by rw [h1]
        _ = -((round (q * 1000000) : ℤ) : ℚ) := by push_cast; ring
    rw [Option.map_some', hcast]
    congr 1
    ring
  · obtain ⟨c, t, he, hc⟩ := fmt6Body_head (round (q * 1000000)).toNat
    rw [he]
    simp only [pyFloatVal]
    obtain ⟨_, _, _, _, _, hdash, hplus⟩ := digits09_facts c hc
    rw [if_neg hdash, if_neg hplus, ← he, pyFloatPos_fmt6Body]
    rw [show (((round (q * 1000000)).toNat : ℕ) : ℚ) = ((round (q * 1000000) : ℤ) : ℚ) from by
      rw [show (((round (q * 1000000)).toNat : ℕ) : ℚ) =
        ((((round (q * 1000000)).toNat : ℕ) : ℤ) : ℚ) from by push_cast; ring]
      rw [Int.toNat_of_nonneg (not_lt.mp hn)]]

theorem pyWordsAux_nonspace : ∀ (w : List Char), (∀ c ∈ w, c.isWhitespace = false) →
    ∀ (rest acc : List Char), pyWordsAux (w ++ rest) acc = pyWordsAux rest (w.reverse ++ acc)
  | [], _, rest, acc => by simp
  | c :: t, hw, rest, acc => by
    have hc : c.isWhitespace = false := hw c (List.mem_cons_self c t)
    have ih := pyWordsAux_nonspace t (fun d hd => hw d (List.mem_cons_of_mem c hd)) rest (c :: acc)
    simp only [List.cons_append, pyWordsAux, hc, Bool.false_eq_true, if_false, List.append_eq]
    rw [ih]
    congr 1
    simp

theorem pyWordsAux_space (c : Char) (hc : c.isWhitespace = true) (rest acc : List Char) :
    pyWordsAux (c :: rest) acc =
      if acc.isEmpty then pyWordsAux rest [] else acc.reverse :: pyWordsAux rest [] := by
  simp [pyWordsAux, hc]

theorem pyWordsAux_last (w : List Char) (hw : ∀ c ∈ w, c.isWhitespace = false)
    (hne : w ≠ []) : pyWordsAux w [] = [w] := by
  have := pyWordsAux_nonspace w hw [] []
  rw [List.append_nil] at this
  rw [this]
  have hrev : (w.reverse ++ []).isEmpty = false := by
    simp [List.isEmpty_iff, hne]
  simp only [pyWordsAux, hrev, Bool.false_eq_true, if_false]
  simp

theorem pyWords_dataLine (v : Color) :
    pyWords (dataLine v) = [fmt6 v.1, fmt6 v.2.1, fmt6 v.2.2] := by
  have h1 : ∀ c ∈ fmt6 v.1, c.isWhitespace = false := fun c hc =>
    (class_facts c (fmt6_mem v.1 c hc)).1
  have h2 : ∀ c ∈ fmt6 v.2.1, c.isWhitespace = false := fun c hc =>
    (class_facts c (fmt6_mem v.2.1 c hc)).1
  have h3 : ∀ c ∈ fmt6 v.2.2, c.isWhitespace = false := fun c hc =>
    (class_facts c (fmt6_mem v.2.2 c hc)).1
  have hsp : (' ' : Char).isWhitespace = true := by decide
  have hrev1 : ((fmt6 v.1).reverse ++ ([] : List Char)).isEmpty = false := by
    simp [List.isEmpty_iff, fmt6_ne_nil]
  have hrev2 : ((fmt6 v.2.1).reverse ++ ([] : List Char)).isEmpty = false := by
    simp [List.isEmpty_iff, fmt6_ne_nil]
  unfold pyWords dataLine
  rw [List.append_assoc]
  rw [pyWordsAux_nonspace (fmt6 v.1) h1]
  rw [List.cons_append]
  rw [pyWordsAux_space ' ' hsp, if_neg (by simp [fmt6_ne_nil])]
  rw [pyWordsAux_nonspace (fmt6 v.2.1) h2]
  rw [pyWordsAux_space ' ' hsp, if_neg (by simp [fmt6_ne_nil])]
  rw [pyWordsAux_last (fmt6 v.2.2) h3 (fmt6_ne_nil v.2.2)]
  simp

theorem pyStrip_head_last (c d : Char) (mid : PyStr)
    (hc : c.isWhitespace = false) (hd : d.isWhitespace = false) :
    pyStrip (c :: (mid ++ [d])) = c :: (mid ++ [d]) := by
  unfold pyStrip
  rw [dropWhile_cons_false _ _ _ hc]
  rw [show (c :: (mid ++ [d])).reverse = d :: (mid.reverse ++ [c]) from by simp]
  rw [dropWhile_cons_false _ _ _ hd]
  simp

theorem head_class_facts (c : Char) (h : c ∈ '-' :: digits09) :
    c.isWhitespace = false ∧ ¬(c = '#') ∧ ¬(c = 'L') := by
  rcases List.mem_cons.mp h with h1 | h1
  · subst h1; exact ⟨by decide, by decide, by decide⟩
  · obtain ⟨_, hw, _, hh, hl, _, _⟩ := digits09_facts c h1
    exact ⟨hw, hh, hl⟩

theorem dataLine_strip (v : Color) : pyStrip (dataLine v) = dataLine v := by
  obtain ⟨c, t, he1, hc⟩ := fmt6_head v.1
  obtain ⟨i, d, he3⟩ := (List.eq_nil_or_concat (fmt6 v.2.2)).resolve_left (fmt6_ne_nil v.2.2)
  have he3' : fmt6 v.2.2 = i ++ [d] := by rw [he3, List.concat_eq_append]
  have hcw : c.isWhitespace = false := (head_class_facts c hc).1
  have hdw : d.isWhitespace = false :=
    (class_facts d (fmt6_mem v.2.2 d
      (he3' ▸ List.mem_append_right i (List.mem_singleton_self d)))).1
  have hshape : dataLine v = c :: ((t ++ ' ' :: fmt6 v.2.1 ++ ' ' :: i) ++ [d]) := by
    unfold dataLine
    rw [he1, he3']
    simp
  rw [hshape, pyStrip_head_last c d _ hcw hdw]

theorem dataLine_ne_nil (v : Color) : dataLine v ≠ [] := by
  simp [dataLine]

theorem dataLine_no_nl (v : Color) : ∀ c ∈ dataLine v, ¬(c = '\n') := by
  intro c hc
  unfold dataLine at hc
  simp only [List.mem_append, List.mem_cons] at hc
  rcases hc with ((h | rfl | h) | rfl | h)
  · exact (class_facts c (fmt6_mem v.1 c h)).2.1
  · decide
  · exact (class_facts c (fmt6_mem v.2.1 c h)).2.1
  · decide
  · exact (class_facts c (fmt6_mem v.2.2 c h)).2.1

theorem splitNl_append : ∀ (l : PyStr), (∀ c ∈ l, ¬(c = '\n')) → ∀ (rest : PyStr),
    splitNl (l ++ '\n' :: rest) = l :: splitNl rest
  | [], _, rest => by simp [splitNl]
  | c :: t, hf, rest => by
    have hc : ¬(c = '\n') := hf c (List.mem_cons_self c t)
    have ih := splitNl_append t (fun d hd => hf d (List.mem_cons_of_mem c hd)) rest
    simp only [List.cons_append, splitNl, hc, if_false, List.append_eq]
    rw [ih]

theorem splitNl_flat : ∀ (vs : List Color),
    splitNl (vs.flatMap (fun v => dataLine v ++ ['\n'])) = vs.map dataLine ++ [[]]
  | [] => by simp [splitNl]
  | v :: t => by
    have ih := splitNl_flat t
    simp only [List.flatMap_cons, List.map_cons]
    rw [show (dataLine v ++ ['\n']) ++ t.flatMap (fun v => dataLine v ++ ['\n']) =
      dataLine v ++ '\n' :: t.flatMap (fun v => dataLine v ++ ['\n']) from by simp]
    rw [splitNl_append (dataLine v) (dataLine_no_nl v), ih]
    simp

theorem header1_no_nl : ∀ c ∈ header1, ¬(c = '\n') := by decide

theorem header2_no_nl : ∀ c ∈ header2, ¬(c = '\n') := by decide

theorem sizeLine_no_nl (n : ℕ) : ∀ c ∈ sizeTag ++ ' ' :: natChars n, ¬(c = '\n') := by
  intro c hc
  rcases List.mem_append.mp hc with h | h
  · exact (show ∀ c ∈ sizeTag, ¬(c = '\n') from by decide) c h
  · rcases List.mem_cons.mp h with rfl | h1
    · decide
    · exact (digits09_facts c (natChars_mem n c h1)).2.2.1

theorem splitNl_nl_cons (s : PyStr) : splitNl ('\n' :: s) = [] :: splitNl s := by
  simp [splitNl]

theorem splitNl_text (size : ℕ) (lut : Grid) :
    splitNl (lut_to_cube size lut) = header1 :: header2 ::
      (sizeTag ++ ' ' :: natChars size) :: [] ::
        ((cubeTriples size lut).map dataLine ++ [[]]) := by
  have e1 : lut_to_cube size lut = header1 ++ '\n' :: (header2 ++ '\n' ::
      ((sizeTag ++ ' ' :: natChars size) ++ '\n' ::
        ('\n' :: (cubeTriples size lut).flatMap (fun v => dataLine v ++ ['\n'])))) := by
    unfold lut_to_cube
    simp [List.append_assoc]
  rw [e1]
  rw [splitNl_append header1 header1_no_nl]
  rw [splitNl_append header2 header2_no_nl]
  rw [splitNl_append (sizeTag ++ ' ' :: natChars size) (sizeLine_no_nl size)]
  rw [splitNl_nl_cons, splitNl_flat]

theorem keep_dataLine (v : Color) :
    (!(pyStrip (dataLine v)).isEmpty && !pyStartsWith ('#' :: []) (dataLine v) &&
      !pyStartsWith sizeTag (dataLine v)) = true := by
  obtain ⟨c, t, he, hc⟩ := fmt6_head v.1
  obtain ⟨hw, hh, hl⟩ := head_class_facts c hc
  have hdl : dataLine v = c :: (t ++ (' ' :: fmt6 v.2.1 ++ ' ' :: fmt6 v.2.2)) := by
    unfold dataLine
    rw [he]
    simp
  have h1 : (pyStrip (dataLine v)).isEmpty = false := by
    rw [dataLine_strip, hdl]
    rfl
  have h2 : pyStartsWith ('#' :: []) (dataLine v) = false := by
    rw [hdl]
    exact isPrefixOf_cons_ne '#' [] c _ (fun he2 => hh he2.symm)
  have h3 : pyStartsWith sizeTag (dataLine v) = false := by
    rw [hdl]
    exact isPrefixOf_cons_ne 'L' _ c _ (fun he2 => hl he2.symm)
  rw [h1, h2, h3]
  rfl

theorem extractDataLines_cube (size : ℕ) (lut : Grid) :
    extractDataLines (lut_to_cube size lut) = (cubeTriples size lut).map dataLine := by
  unfold extractDataLines
  rw [splitNl_text]
  have hsz : (!(pyStrip (sizeTag ++ ' ' :: natChars size)).isEmpty &&
      !pyStartsWith ('#' :: []) (sizeTag ++ ' ' :: natChars size) &&
      !pyStartsWith sizeTag (sizeTag ++ ' ' :: natChars size)) = false := by
    have : pyStartsWith sizeTag (sizeTag ++ ' ' :: natChars size) = true :=
      isPrefixOf_self_append sizeTag _
    rw [this]
    simp
  rw [List.filter_cons_of_neg (by decide), List.filter_cons_of_neg (by decide),
    List.filter_cons_of_neg (by simp [hsz]), List.filter_cons_of_neg (by decide),
    List.filter_append]
  rw [List.filter_eq_self.mpr (fun line hline => by
    obtain ⟨v, _, rfl⟩ := List.mem_map.mp hline
    exact keep_dataLine v)]
  rw [show ([[]] : List PyStr).filter (fun line => !(pyStrip line).isEmpty &&
    !pyStartsWith ('#' :: []) line && !pyStartsWith sizeTag line) = [] from by decide]
  rw [List.append_nil, List.map_map]
  exact List.map_congr_left (fun v _ => dataLine_strip v)

theorem flatMap_range_map {α : Type} (n : ℕ) (hn : 0 < n) :
    ∀ (m : ℕ) (f : ℕ → ℕ → α),
      (List.range m).flatMap (fun a => (List.range n).map (fun b => f a b)) =
        (List.range (m * n)).map (fun i => f (i / n) (i % n))
  | 0, f => by simp
  | m + 1, f => by
    have ih := flatMap_range_map n hn m f
    rw [List.range_succ, List.flatMap_append, ih,
      show (m + 1) * n = m * n + n from by ring, List.range_add, List.map_append,
      List.map_map]
    congr 1
    simp only [List.flatMap_cons, List.flatMap_nil, List.append_nil]
    apply List.map_congr_left
    intro b hb
    have hbn : b < n := List.mem_range.mp hb
    have hdiv : (m * n + b) / n = m := by
      rw [Nat.add_comm, Nat.mul_comm m n, Nat.add_mul_div_left b m hn,
        Nat.div_eq_of_lt hbn]
      omega
    have hmod : (m * n + b) % n = b := by
      rw [Nat.add_comm, Nat.mul_comm m n, Nat.add_mul_mod_self_left]
      exact Nat.mod_eq_of_lt hbn
    show f m b = f ((m * n + b) / n) ((m * n + b) % n)
    rw [hdiv, hmod]

theorem cubeTriples_eq (size : ℕ) (hs : 0 < size) (lut : Grid) :
    cubeTriples size lut = (List.range (size * size * size)).map
      (fun i => lut (i / (size * size)) ((i % (size * size)) / size) (i % size)) := by
  unfold cubeTriples
  have hss : 0 < size * size := Nat.mul_pos hs hs
  have inner : ∀ r : ℕ, (List.range size).flatMap
      (fun g => (List.range size).map (fun b => lut r g b)) =
        (List.range (size * size)).map (fun j => lut r (j / size) (j % size)) :=
    fun r => flatMap_range_map size hs size (fun g b => lut r g b)
  calc (List.range size).flatMap (fun r => (List.range size).flatMap
          (fun g => (List.range size).map (fun b => lut r g b)))
      = (List.range size).flatMap (fun r => (List.range (size * size)).map
          (fun j => lut r (j / size) (j % size))) := by
        simp only [inner]
    _ = (List.range (size * (size * size))).map
          (fun i => lut (i / (size * size)) ((i % (size * size)) / size)
            ((i % (size * size)) % size)) :=
        flatMap_range_map (size * size) hss size (fun r j => lut r (j / size) (j % size))
    _ = (List.range (size * size * size)).map
          (fun i => lut (i / (size * size)) ((i % (size * size)) / size) (i % size)) := by
        rw [show size * (size * size) = size * size * size from by ring]
        apply List.map_congr_left
        intro i _
        rw [Nat.mod_mod_of_dvd i (Dvd.intro size rfl)]

/-- C1: for every N×N×N grid, data line i (0-based, counting only
non-comment, non-size, non-blank lines) of the text produced by
`lut_to_cube` holds the grid value at position (r,g,b) with r = i / N²,
g = (i % N²) / N, b = i % N — red outermost, blue varying fastest. -/
theorem C1_cube_line_order (size : ℕ) (lut : Grid) (i : ℕ) (h : i < size ^ 3) :
    (extractDataLines (lut_to_cube size lut))[i]? =
      some (dataLine (lut (i / (size * size)) ((i % (size * size)) / size) (i % size))) := by
  have hs : 0 < size := by
    rcases Nat.eq_zero_or_pos size with rfl | hs
    · simp at h
    · exact hs
  have h3 : i < size * size * size := by
    calc i < size ^ 3 := h
    _ = size * size * size := by ring
  rw [extractDataLines_cube, cubeTriples_eq size hs]
  rw [List.getElem?_map, List.getElem?_map, List.getElem?_range h3]
  rfl

/-- Witness for C1 on the 2×2×2 identity grid at line index 5. -/
theorem C1_cube_line_order_witness :
    (extractDataLines (lut_to_cube 2 (identityGrid 2)))[5]? =
      some (dataLine (identityGrid 2 1 0 1)) := by
  have h := C1_cube_line_order 2 (identityGrid 2) 5 (by norm_num)
  norm_num at h
  exact h

theorem roundCbrt_cube (s : ℕ) : roundCbrt (s * s * s) = s := by
  have h1 : floorCbrt (s * s * s) = s := by
    unfold floorCbrt
    rw [Nat.find_eq_iff]
    refine ⟨by nlinarith, fun m hm => ?_⟩
    push_neg
    have hms : m + 1 ≤ s := by omega
    calc (m + 1) ^ 3 ≤ s ^ 3 := Nat.pow_le_pow_left hms 3
    _ = s * s * s := by ring
  unfold roundCbrt
  rw [h1, if_pos (by nlinarith)]

theorem enum_range (n : ℕ) : (List.range n).enum = (List.range n).map (fun i => (i, i)) := by
  rw [List.enum_eq_zip_range, List.length_range]
  have := List.zip_map' (id : ℕ → ℕ) (id : ℕ → ℕ) (List.range n)
  simpa using this

theorem mapM_option_all {α β : Type} (g : α → Option β) :
    ∀ (l : List α) (f : α → β), (∀ a ∈ l, g a = some (f a)) → l.mapM g = some (l.map f)
  | [], _, _ => rfl
  | a :: t, f, h => by
    have ih := mapM_option_all g t f (fun b hb => h b (List.mem_cons_of_mem a hb))
    rw [← List.mapM'_eq_mapM] at ih ⊢
    simp [List.mapM'_cons, h a (List.mem_cons_self a t), ih]

theorem reduceOption_map_some {α : Type} : ∀ l : List α, (l.map some).reduceOption = l
  | [] => rfl
  | a :: t => by
    simp [List.reduceOption_cons_of_some, reduceOption_map_some t]

theorem lineResult_dataLine (sz i : ℕ) (v : Color) :
    lineResult sz i (dataLine v) = some (some (max
      |((round (v.1 * 1000000) : ℤ) : ℚ) / 1000000 - ((i % sz : ℕ) : ℚ) / ((sz : ℚ) - 1)|
      (max |((round (v.2.1 * 1000000) : ℤ) : ℚ) / 1000000 -
          (((i % (sz * sz)) / sz : ℕ) : ℚ) / ((sz : ℚ) - 1)|
        |((round (v.2.2 * 1000000) : ℤ) : ℚ) / 1000000 -
          ((i / (sz * sz) : ℕ) : ℚ) / ((sz : ℚ) - 1)|))) := by
  unfold lineResult
  rw [if_neg (by simp [List.isEmpty_iff, dataLine_ne_nil])]
  rw [pyWords_dataLine]
  rw [show ([fmt6 v.1, fmt6 v.2.1, fmt6 v.2.2].mapM pyFloatVal : Option (List ℚ)) =
    some [((round (v.1 * 1000000) : ℤ) : ℚ) / 1000000,
          ((round (v.2.1 * 1000000) : ℤ) : ℚ) / 1000000,
          ((round (v.2.2 * 1000000) : ℤ) : ℚ) / 1000000] from by
    rw [← List.mapM'_eq_mapM]
    simp [List.mapM'_cons, pyFloatVal_fmt6]]

theorem analyze_cube_eval (s : ℕ) (hs : 0 < s) (lut : Grid) :
    analyze_lut_content (lut_to_cube s lut) = some
      ⟨s * s * s,
       ((List.range (s * s * s)).map (analyzerDiff s lut)).countP (fun d => decide (d > 1/100)),
       ((List.range (s * s * s)).map (analyzerDiff s lut)).countP (fun d => decide (d ≤ 1/100)),
       ((List.range (s * s * s)).map (analyzerDiff s lut)).foldl max 0,
       ((((List.range (s * s * s)).map (analyzerDiff s lut)).countP
           (fun d => decide (d > 1/100)) : ℕ) : ℚ) / ((s * s * s : ℕ) : ℚ) * 100⟩ := by
  have hn3 : 0 < s * s * s := by positivity
  have hextract : extractDataLines (lut_to_cube s lut) =
      (List.range (s * s * s)).map
        (fun i => dataLine (lut (i / (s * s)) ((i % (s * s)) / s) (i % s))) := by
    rw [extractDataLines_cube, cubeTriples_eq s hs, List.map_map]
    rfl
  have hlen : (extractDataLines (lut_to_cube s lut)).length = s * s * s := by
    rw [hextract]
    simp
  have henum : (extractDataLines (lut_to_cube s lut)).enum =
      (List.range (s * s * s)).map (fun i =>
        (i, dataLine (lut (i / (s * s)) ((i % (s * s)) / s) (i % s)))) := by
    rw [hextract, List.enum_map, enum_range, List.map_map]
    rfl
  have hmapM : (extractDataLines (lut_to_cube s lut)).enum.mapM
      (fun p => lineResult s p.1 p.2) =
        some ((List.range (s * s * s)).map (fun i => some (analyzerDiff s lut i))) := by
    rw [henum]
    rw [show (List.range (s * s * s)).map (fun i => some (analyzerDiff s lut i)) =
      ((List.range (s * s * s)).map (fun i =>
        (i, dataLine (lut (i / (s * s)) ((i % (s * s)) / s) (i % s))))).map
          (fun p => some (analyzerDiff s lut p.1)) from by rw [List.map_map]; rfl]
    apply mapM_option_all
    intro a ha
    obtain ⟨i, _, rfl⟩ := List.mem_map.mp ha
    exact lineResult_dataLine s i _
  have hred : ((List.range (s * s * s)).map
      (fun i => some (analyzerDiff s lut i))).reduceOption =
        (List.range (s * s * s)).map (analyzerDiff s lut) := by
    rw [show (List.range (s * s * s)).map (fun i => some (analyzerDiff s lut i)) =
      ((List.range (s * s * s)).map (analyzerDiff s lut)).map some from by
        rw [List.map_map]; rfl]
    exact reduceOption_map_some _
  simp only [analyze_lut_content]
  rw [hlen, roundCbrt_cube, hmapM]
  simp only [hred]
  rw [if_neg (by omega : ¬(s * s * s = 0))]

theorem fmt6_sixDecimal (q : ℚ) : sixDecimalToken (fmt6 q) := by
  simp only [fmt6]
  split_ifs
  · exact ⟨['-'], natChars ((round (q * 1000000)).natAbs / 1000000),
      fracChars ((round (q * 1000000)).natAbs % 1000000), by simp [fmt6Body],
      Or.inr rfl, natChars_ne_nil _,
      fracChars_len _ (lt_of_lt_of_le (Nat.mod_lt _ (by norm_num)) (by norm_num)),
      fun c hc => (digits09_facts c (natChars_mem _ c hc)).1,
      fun c hc => (digits09_facts c (fracChars_mem _ c hc)).1⟩
  · exact ⟨[], natChars ((round (q * 1000000)).toNat / 1000000),
      fracChars ((round (q * 1000000)).toNat % 1000000), by simp [fmt6Body],
      Or.inl rfl, natChars_ne_nil _,
      fracChars_len _ (lt_of_lt_of_le (Nat.mod_lt _ (by norm_num)) (by norm_num)),
      fun c hc => (digits09_facts c (natChars_mem _ c hc)).1,
      fun c hc => (digits09_facts c (fracChars_mem _ c hc)).1⟩

/-- C6: for every 33³ grid the encoded text is well-formed and never empty or
truncated: two comment lines beginning with `#`, the exact line
`LUT_3D_SIZE 33`, a blank line, then exactly 35,937 data lines, each of
three space-separated fixed-point tokens with six fractional digits; and
`analyze_lut_content` on this text reports `total_entries = 35937`. -/
theorem C6_cube_text_well_formed (lut : Grid) :
    splitNl (lut_to_cube LUT_SIZE lut) = header1 :: header2 ::
      (sizeTag ++ ' ' :: natChars LUT_SIZE) :: [] ::
        ((cubeTriples LUT_SIZE lut).map dataLine ++ [[]]) ∧
    pyStartsWith ('#' :: []) header1 = true ∧
    pyStartsWith ('#' :: []) header2 = true ∧
    sizeTag ++ ' ' :: natChars LUT_SIZE = (r"LUT_3D_SIZE 33").data ∧
    (extractDataLines (lut_to_cube LUT_SIZE lut)).length = 35937 ∧
    (∀ line ∈ extractDataLines (lut_to_cube LUT_SIZE lut),
      ∃ v : Color, line = dataLine v ∧ (pyWords line).length = 3 ∧
        ∀ w ∈ pyWords line, sixDecimalToken w) ∧
    (∃ rep : LutReport, analyze_lut_content (lut_to_cube LUT_SIZE lut) = some rep ∧
      rep.total_entries = 35937) := by
  refine ⟨splitNl_text LUT_SIZE lut, by decide, by decide, by decide, ?_, ?_, ?_⟩
  · rw [extractDataLines_cube, cubeTriples_eq LUT_SIZE (by norm_num [LUT_SIZE]) lut]
    simp [LUT_SIZE]
  · intro line hline
    rw [extractDataLines_cube] at hline
    obtain ⟨v, _, rfl⟩ := List.mem_map.mp hline
    refine ⟨v, rfl, ?_, ?_⟩
    · rw [pyWords_dataLine]
      rfl
    · intro w hw
      rw [pyWords_dataLine] at hw
      rcases List.mem_cons.mp hw with rfl | hw1
      · exact fmt6_sixDecimal v.1
      · rcases List.mem_cons.mp hw1 with rfl | hw2
        · exact fmt6_sixDecimal v.2.1
        · rw [List.mem_singleton.mp hw2]
          exact fmt6_sixDecimal v.2.2
  · exact ⟨_, analyze_cube_eval 33 (by norm_num) lut, by norm_num⟩

/-- Witness for C6 (the data-line-shape conjunct has a membership
hypothesis): line shape at the first data line of the encoded 33³ identity
grid. -/
theorem C6_cube_text_well_formed_witness :
    dataLine (identityGrid LUT_SIZE 0 0 0) ∈
        extractDataLines (lut_to_cube LUT_SIZE (identityGrid LUT_SIZE)) ∧
      ∃ v : Color, dataLine (identityGrid LUT_SIZE 0 0 0) = dataLine v ∧
        (pyWords (dataLine (identityGrid LUT_SIZE 0 0 0))).length = 3 ∧
        ∀ w ∈ pyWords (dataLine (identityGrid LUT_SIZE 0 0 0)), sixDecimalToken w := by
  have hmem : dataLine (identityGrid LUT_SIZE 0 0 0) ∈
      extractDataLines (lut_to_cube LUT_SIZE (identityGrid LUT_SIZE)) := by
    rw [extractDataLines_cube]
    refine List.mem_map_of_mem dataLine ?_
    unfold cubeTriples
    refine List.mem_flatMap.mpr ⟨0, List.mem_range.mpr (by norm_num [LUT_SIZE]),
      List.mem_flatMap.mpr ⟨0, List.mem_range.mpr (by norm_num [LUT_SIZE]),
        List.mem_map.mpr ⟨0, List.mem_range.mpr (by norm_num [LUT_SIZE]), rfl⟩⟩⟩
  exact ⟨hmem,
    (C6_cube_text_well_formed (identityGrid LUT_SIZE)).2.2.2.2.2.1 _ hmem⟩

theorem sum_map_const_nat (m c : ℕ) : ((List.range m).map (fun _ => c)).sum = m * c := by
  rw [List.map_const', List.length_range, List.sum_replicate, smul_eq_mul]

theorem countP_range_mul (n : ℕ) (p : ℕ → Bool) :
    ∀ m : ℕ, (List.range (m * n)).countP p =
      ((List.range m).map (fun a => (List.range n).countP (fun b => p (a * n + b)))).sum
  | 0 => by simp
  | m + 1 => by
    have ih := countP_range_mul n p m
    rw [show (m + 1) * n = m * n + n from by ring, List.range_add, List.countP_append, ih,
      List.range_succ, List.map_append, List.sum_append, List.countP_map]
    rfl

theorem countP_all_range (n : ℕ) (p : ℕ → Bool) (h : ∀ b, b < n → p b = true) :
    (List.range n).countP p = n := by
  have hl := List.countP_eq_length.mpr (fun b hb => h b (List.mem_range.mp hb))
  rw [hl, List.length_range]

theorem countP_none_range (n : ℕ) (p : ℕ → Bool) (h : ∀ b, b < n → p b = false) :
    (List.range n).countP p = 0 := by
  rw [List.countP_eq_zero]
  intro b hb
  rw [h b (List.mem_range.mp hb)]
  simp

theorem countP_ne_range : ∀ (n r : ℕ), r < n →
    (List.range n).countP (fun b => decide (¬(r = b))) = n - 1
  | 0, _, h => absurd h (by omega)
  | n + 1, r, h => by
    rw [List.range_succ, List.countP_append]
    rcases Nat.lt_or_ge r n with hr | hr
    · have h1 : List.countP (fun b => decide (¬(r = b))) [n] = 1 := by
        simp [List.countP_cons, List.countP_nil, Nat.ne_of_lt hr]
      rw [countP_ne_range n r hr, h1]
      omega
    · have hrn : r = n := by omega
      subst hrn
      have h1 : List.countP (fun b => decide (¬(r = b))) [r] = 0 := by
        simp [List.countP_cons, List.countP_nil]
      have h2 : List.countP (fun b => decide (¬(r = b))) (List.range r) = r :=
        countP_all_range r _ (fun b hb => by simp [Nat.ne_of_gt hb])
      rw [h1, h2]
      omega

theorem countP_eq_range : ∀ (n r : ℕ), r < n →
    (List.range n).countP (fun b => decide (r = b)) = 1
  | 0, _, h => absurd h (by omega)
  | n + 1, r, h => by
    rw [List.range_succ, List.countP_append]
    rcases Nat.lt_or_ge r n with hr | hr
    · have h1 : List.countP (fun b => decide (r = b)) [n] = 0 := by
        simp [List.countP_cons, List.countP_nil, Nat.ne_of_lt hr]
      rw [countP_eq_range n r hr, h1]
    · have hrn : r = n := by omega
      subst hrn
      have h1 : List.countP (fun b => decide (r = b)) [r] = 1 := by
        simp [List.countP_cons, List.countP_nil]
      have h2 : List.countP (fun b => decide (r = b)) (List.range r) = 0 :=
        countP_none_range r _ (fun b hb => by simp [Nat.ne_of_gt hb])
      rw [h1, h2]

theorem round_k32 (k : ℕ) :
    round (((k : ℚ) / 32) * 1000000) = ((31250 * k : ℕ) : ℤ) := by
  rw [show ((k : ℚ) / 32) * 1000000 = ((31250 * k : ℕ) : ℚ) from by push_cast; ring]
  exact round_natCast _

theorem pv_k32 (k : ℕ) :
    ((round (((k : ℚ) / 32) * 1000000) : ℤ) : ℚ) / 1000000 = (k : ℚ) / 32 := by
  rw [round_k32]
  push_cast
  ring

/-- On the 33³ identity grid, the analyzer's per-line max deviation collapses
to the red/blue coordinate swap: green matches exactly, red and blue both
deviate by |i/33² − i%33|/32. -/
theorem analyzerDiff_identity (i : ℕ) :
    analyzerDiff 33 (identityGrid 33) i =
      |((i / (33 * 33) : ℕ) : ℚ) / 32 - ((i % 33 : ℕ) : ℚ) / 32| := by
  have h32 : ((33 : ℕ) : ℚ) - 1 = 32 := by norm_num
  simp only [analyzerDiff, identityGrid, h32, pv_k32]
  rw [sub_self, abs_zero,
    abs_sub_comm (((i % 33 : ℕ) : ℚ) / 32) (((i / (33 * 33) : ℕ) : ℚ) / 32),
    max_eq_right (abs_nonneg (((i / (33 * 33) : ℕ) : ℚ) / 32 - ((i % 33 : ℕ) : ℚ) / 32)),
    max_self]

/-- Two voxel coordinates differ iff the scaled channel values differ by more
than the analyzer's 0.01 tolerance. -/
theorem diff_cond (a b : ℕ) :
    (|(a : ℚ) / 32 - (b : ℚ) / 32| > 1/100) ↔ ¬(a = b) := by
  rw [div_sub_div_same, abs_div, abs_of_nonneg (by norm_num : (0:ℚ) ≤ 32)]
  constructor
  · intro h hab
    subst hab
    rw [sub_self, abs_zero] at h
    norm_num at h
  · intro h
    have hz : ((a : ℤ) - (b : ℤ)) ≠ 0 := by
      intro hz
      exact h (by omega)
    have h2 : ((|(a : ℤ) - (b : ℤ)| : ℤ) : ℚ) = |(a : ℚ) - (b : ℚ)| := by
      push_cast
      ring_nf
    have h1 : (1 : ℚ) ≤ |(a : ℚ) - (b : ℚ)| := by
      rw [← h2]
      exact_mod_cast Int.one_le_abs hz
    linarith

theorem diff_cond_le (a b : ℕ) :
    (|(a : ℚ) / 32 - (b : ℚ) / 32| ≤ 1/100) ↔ a = b := by
  constructor
  · intro hle
    by_contra hne
    exact absurd ((diff_cond a b).mpr hne) (not_lt.mpr hle)
  · intro he
    subst he
    rw [sub_self, abs_zero]
    norm_num

theorem inner_count_ne (a : ℕ) (ha : a < 33) :
    (List.range (33 * 33)).countP (fun b => decide (¬(a = b % 33))) = 33 * 32 := by
  have h1 : ∀ c ∈ List.range 33,
      (List.range 33).countP (fun d => decide (¬(a = (c * 33 + d) % 33))) = 32 := by
    intro c _
    have he : ∀ d ∈ List.range 33,
        decide (¬(a = (c * 33 + d) % 33)) = decide (¬(a = d)) := by
      intro d hd
      have hd' := List.mem_range.mp hd
      have hm : (c * 33 + d) % 33 = d := by omega
      rw [hm]
    calc (List.range 33).countP (fun d => decide (¬(a = (c * 33 + d) % 33)))
        = (List.range 33).countP (fun d => decide (¬(a = d))) :=
          List.countP_congr (fun d hd => by rw [he d hd])
      _ = 32 := countP_ne_range 33 a ha
  have h2 : ((List.range 33).map (fun c =>
      (List.range 33).countP (fun d => decide (¬(a = (c * 33 + d) % 33))))).sum = 33 * 32 := by
    rw [List.map_congr_left h1, sum_map_const_nat]
  rw [countP_range_mul 33 _ 33]
  exact h2

theorem inner_count_eq (a : ℕ) (ha : a < 33) :
    (List.range (33 * 33)).countP (fun b => decide (a = b % 33)) = 33 * 1 := by
  have h1 : ∀ c ∈ List.range 33,
      (List.range 33).countP (fun d => decide (a = (c * 33 + d) % 33)) = 1 := by
    intro c _
    have he : ∀ d ∈ List.range 33,
        decide (a = (c * 33 + d) % 33) = decide (a = d) := by
      intro d hd
      have hd' := List.mem_range.mp hd
      have hm : (c * 33 + d) % 33 = d := by omega
      rw [hm]
    calc (List.range 33).countP (fun d => decide (a = (c * 33 + d) % 33))
        = (List.range 33).countP (fun d => decide (a = d)) :=
          List.countP_congr (fun d hd => by rw [he d hd])
      _ = 1 := countP_eq_range 33 a ha
  have h2 : ((List.range 33).map (fun c =>
      (List.range 33).countP (fun d => decide (a = (c * 33 + d) % 33)))).sum = 33 * 1 := by
    rw [List.map_congr_left h1, sum_map_const_nat]
  rw [countP_range_mul 33 _ 33]
  exact h2

theorem count_nat_transform :
    (List.range (33 * 33 * 33)).countP
      (fun i => decide (¬(i / (33 * 33) = i % 33))) = 34848 := by
  rw [show (33 * 33 * 33 : ℕ) = 33 * (33 * 33) from by ring]
  have h1 : ∀ a ∈ List.range 33,
      (List.range (33 * 33)).countP (fun b =>
        decide (¬((a * (33 * 33) + b) / (33 * 33) = (a * (33 * 33) + b) % 33))) = 33 * 32 := by
    intro a ha
    have he : ∀ b ∈ List.range (33 * 33),
        decide (¬((a * (33 * 33) + b) / (33 * 33) = (a * (33 * 33) + b) % 33)) =
          decide (¬(a = b % 33)) := by
      intro b hb
      have hb' := List.mem_range.mp hb
      have e1 : (a * (33 * 33) + b) / (33 * 33) = a := by omega
      have e2 : (a * (33 * 33) + b) % 33 = b % 33 := by omega
      rw [e1, e2]
    calc (List.range (33 * 33)).countP (fun b =>
          decide (¬((a * (33 * 33) + b) / (33 * 33) = (a * (33 * 33) + b) % 33)))
        = (List.range (33 * 33)).countP (fun b => decide (¬(a = b % 33))) :=
          List.countP_congr (fun b hb => by rw [he b hb])
      _ = 33 * 32 := inner_count_ne a (List.mem_range.mp ha)
  have h2 : ((List.range 33).map (fun a => (List.range (33 * 33)).countP (fun b =>
      decide (¬((a * (33 * 33) + b) / (33 * 33) = (a * (33 * 33) + b) % 33))))).sum =
      34848 := by
    rw [List.map_congr_left h1, sum_map_const_nat]
  rw [countP_range_mul (33 * 33) _ 33]
  exact h2

theorem count_nat_identity :
    (List.range (33 * 33 * 33)).countP
      (fun i => decide (i / (33 * 33) = i % 33)) = 1089 := by
  rw [show (33 * 33 * 33 : ℕ) = 33 * (33 * 33) from by ring]
  have h1 : ∀ a ∈ List.range 33,
      (List.range (33 * 33)).countP (fun b =>
        decide ((a * (33 * 33) + b) / (33 * 33) = (a * (33 * 33) + b) % 33)) = 33 * 1 := by
    intro a ha
    have he : ∀ b ∈ List.range (33 * 33),
        decide ((a * (33 * 33) + b) / (33 * 33) = (a * (33 * 33) + b) % 33) =
          decide (a = b % 33) := by
      intro b hb
      have hb' := List.mem_range.mp hb
      have e1 : (a * (33 * 33) + b) / (33 * 33) = a := by omega
      have e2 : (a * (33 * 33) + b) % 33 = b % 33 := by omega
      rw [e1, e2]
    calc (List.range (33 * 33)).countP (fun b =>
          decide ((a * (33 * 33) + b) / (33 * 33) = (a * (33 * 33) + b) % 33))
        = (List.range (33 * 33)).countP (fun b => decide (a = b % 33)) :=
          List.countP_congr (fun b hb => by rw [he b hb])
      _ = 33 * 1 := inner_count_eq a (List.mem_range.mp ha)
  have h2 : ((List.range 33).map (fun a => (List.range (33 * 33)).countP (fun b =>
      decide ((a * (33 * 33) + b) / (33 * 33) = (a * (33 * 33) + b) % 33)))).sum =
      1089 := by
    rw [List.map_congr_left h1, sum_map_const_nat]
  rw [countP_range_mul (33 * 33) _ 33]
  exact h2

theorem count_transform :
    ((List.range (33 * 33 * 33)).map (analyzerDiff 33 (identityGrid 33))).countP
      (fun d => decide (d > 1/100)) = 34848 := by
  rw [List.countP_map]
  have he : ∀ i ∈ List.range (33 * 33 * 33),
      (((fun d => decide (d > 1/100)) ∘ analyzerDiff 33 (identityGrid 33)) i = true ↔
        decide (¬(i / (33 * 33) = i % 33)) = true) := by
    intro i _
    simp only [Function.comp_apply, analyzerDiff_identity i, decide_eq_true_eq]
    exact diff_cond _ _
  rw [List.countP_congr he]
  exact count_nat_transform

theorem count_identity :
    ((List.range (33 * 33 * 33)).map (analyzerDiff 33 (identityGrid 33))).countP
      (fun d => decide (d ≤ 1/100)) = 1089 := by
  rw [List.countP_map]
  have he : ∀ i ∈ List.range (33 * 33 * 33),
      (((fun d => decide (d ≤ 1/100)) ∘ analyzerDiff 33 (identityGrid 33)) i = true ↔
        decide (i / (33 * 33) = i % 33) = true) := by
    intro i _
    simp only [Function.comp_apply, analyzerDiff_identity i, decide_eq_true_eq]
    exact diff_cond_le _ _
  rw [List.countP_congr he]
  exact count_nat_identity

/-- C2: the round-trip FAILS: encoding the 33³ identity grid with
`lut_to_cube` and analyzing the text with `analyze_lut_content` does not
report transformations = 0 and identity_count = 35937; the analyzer decodes
line index i as b = i/N², r = i%N while the encoder wrote red outermost, so
the red and blue coordinates are swapped and it reports 34848 transformed
voxels and only 1089 identity voxels. -/
theorem C2_roundtrip_mismatch :
    ∃ rep : LutReport,
      analyze_lut_content (lut_to_cube LUT_SIZE (identityGrid LUT_SIZE)) = some rep ∧
        rep.total_entries = 35937 ∧ rep.transformations = 34848 ∧
        rep.identity_count = 1089 := by
  have h := analyze_cube_eval 33 (by norm_num) (identityGrid 33)
  rw [count_transform, count_identity] at h
  exact ⟨_, h, rfl, rfl, rfl⟩
